import Mathlib

/-!
# MQTT bridge of WLED (`wled00/mqtt.cpp`)

A shallow embedding of the message handler, the three payload parsers and the
publisher of `wled00/mqtt.cpp`, together with the parts of the C library they
call (`strcmp`, `strncmp`, `strtoul`, `sscanf "%d,%d,%d,%d"`, `snprintf`,
`strlcpy`, `strcat`, `memcpy`).

Conventions.
* A byte is a `Nat`; a C string is the list of its bytes before the
  terminating NUL; a memory block (`char*` into a buffer) is the list of its
  bytes, and `cstr` reads the C string stored at its start.
* `size_t` and `unsigned long` are 32 bit wide and `int` is 32 bit wide
  (ESP8266 / ESP32, the targets of the firmware).
* Calls to collaborators that are not part of `mqtt.cpp` (`stateUpdated`,
  `colorUpdated`, `UsermodManager::onMqttMessage`, `mqtt->publish`) are
  recorded, in order, in the `trace` of the state.
* A write outside an allocated block is undefined behaviour: the handler
  returns `none`.
-/

namespace Mqtt

/-! ## C library -/

/-- Number of values of `size_t` and of `unsigned long` (32 bit). -/
def SIZE_MOD : Nat := 2 ^ 32

/-- Largest `unsigned long`. -/
def ULONG_MAX : Nat := 2 ^ 32 - 1

/-- Largest `int`. -/
def INT_MAX : Int := 2 ^ 31 - 1

/-- Smallest `int`. -/
def INT_MIN : Int := -(2 ^ 31)

/-- C `isspace` in the "C" locale: space, `\t`, `\n`, `\v`, `\f`, `\r`. -/
def isspace (c : Nat) : Bool := c == 32 || (9 ≤ c && c ≤ 13)

/-- C `isdigit`: `'0'` .. `'9'`. -/
def isdigit (c : Nat) : Bool := 48 ≤ c && c ≤ 57

/-- The C string stored at the start of a memory block: the bytes before the
first NUL. -/
def cstr (mem : List Nat) : List Nat := mem.takeWhile (fun c => c != 0)

/-- C `strlen` of a C string. -/
def strlen (s : List Nat) : Nat := s.length

/-- C `strcmp` on C strings; only the sign of the result is specified by the
C standard, so the result is `-1`, `0` or `1`. The end of a list is the
terminating NUL, which compares below every other byte. -/
def strcmp : List Nat → List Nat → Int
  | [], [] => 0
  | [], _ :: _ => -1
  | _ :: _, [] => 1
  | a :: as, b :: bs => if a = b then strcmp as bs else if a < b then -1 else 1

/-- C `strncmp`: like `strcmp`, but at most `n` bytes are compared. -/
def strncmp : List Nat → List Nat → Nat → Int
  | _, _, 0 => 0
  | [], [], _ + 1 => 0
  | [], _ :: _, _ + 1 => -1
  | _ :: _, [], _ + 1 => 1
  | a :: as, b :: bs, n + 1 =>
    if a = b then strncmp as bs n else if a < b then -1 else 1

/-- Value of a run of decimal digits, most significant first, continuing from
the accumulator `acc`. -/
def digitsValue (acc : Nat) : List Nat → Nat
  | [] => acc
  | d :: ds => digitsValue (10 * acc + (d - 48)) ds

/-- Optional sign of a number: whether it is negative, and the input after
the sign. `45` is `'-'`, `43` is `'+'`. -/
def takeSign : List Nat → Bool × List Nat
  | 45 :: t => (true, t)
  | 43 :: t => (false, t)
  | s => (false, s)

/-- C `strtoul(s, NULL, 10)`: skip white space, read an optional sign and the
longest run of decimal digits. No digits: the result is 0. A value above
`ULONG_MAX` gives `ULONG_MAX`; otherwise a minus sign negates the value in
`unsigned long`. -/
def strtoul (s : List Nat) : Nat :=
  let s1 := s.dropWhile isspace
  let sg := takeSign s1
  let ds := sg.2.takeWhile isdigit
  if ds = [] then 0
  else
    let v := digitsValue 0 ds
    if v > ULONG_MAX then ULONG_MAX
    else if sg.1 then (SIZE_MOD - v) % SIZE_MOD else v

/-- Outcome of one `%d` directive of `sscanf`. -/
inductive ScanInt where
  /-- Input failure: the input ended before any character of a number. -/
  | eof
  /-- Matching failure: the next characters are not a decimal integer. -/
  | nomatch
  /-- A value was converted; `rest` is the input after it. -/
  | ok (v : Int) (rest : List Nat)
  deriving DecidableEq, Repr

/-- Conversion of a signed decimal to `int` as done by `strtol` (used by the
`%d` directive in newlib): values outside the range of `int` saturate. -/
def toIntSat (neg : Bool) (v : Nat) : Int :=
  let x : Int := if neg then -(v : Int) else (v : Int)
  if x > INT_MAX then INT_MAX else if x < INT_MIN then INT_MIN else x

/-- One `%d` directive of `sscanf`: skip white space, read an optional sign
and the longest run of decimal digits. -/
def scanInt (s : List Nat) : ScanInt :=
  let s1 := s.dropWhile isspace
  if s1 = [] then ScanInt.eof
  else
    let sg := takeSign s1
    let ds := sg.2.takeWhile isdigit
    if ds = [] then ScanInt.nomatch
    else ScanInt.ok (toIntSat sg.1 (digitsValue 0 ds)) (sg.2.dropWhile isdigit)

/-- The literal `','` of the format: the next input byte must be `44`. -/
def scanComma : List Nat → Option (List Nat)
  | 44 :: t => some t
  | _ => none

/-- Result of `sscanf(payload, "%d,%d,%d,%d", &r, &g, &b, &w)`: the return
value and the four variables; a variable that was not assigned keeps the
value it had before the call. -/
structure Scan4 where
  fields : Int
  r : Int
  g : Int
  b : Int
  w : Int
  deriving DecidableEq, Repr

/-- C `sscanf(s, "%d,%d,%d,%d", &r, &g, &b, &w)` with the variables holding
`r0 g0 b0 w0` before the call. The return value is the number of assigned
variables, or `EOF = -1` when the input ends before the first conversion. -/
def sscanf4 (s : List Nat) (r0 g0 b0 w0 : Int) : Scan4 :=
  match scanInt s with
  | ScanInt.eof => ⟨-1, r0, g0, b0, w0⟩
  | ScanInt.nomatch => ⟨0, r0, g0, b0, w0⟩
  | ScanInt.ok r s1 =>
    match (scanComma s1).map scanInt with
    | some (ScanInt.ok g s2) =>
      match (scanComma s2).map scanInt with
      | some (ScanInt.ok b s3) =>
        match (scanComma s3).map scanInt with
        | some (ScanInt.ok w _) => ⟨4, r, g, b, w⟩
        | _ => ⟨3, r, g, b, w0⟩
      | _ => ⟨2, r, g, b0, w0⟩
    | _ => ⟨1, r, g0, b0, w0⟩

/-- Arduino `constrain(x, lo, hi)`:
`((x) < (lo) ? (lo) : ((x) > (hi) ? (hi) : (x)))`. -/
def constrain (x lo hi : Int) : Int :=
  if x < lo then lo else if x > hi then hi else x

/-- Decimal digits of `n`, most significant first, with `fuel` bounding the
number of digits. -/
def decDigitsAux : Nat → Nat → List Nat
  | 0, _ => []
  | fuel + 1, n =>
    if n < 10 then [48 + n] else decDigitsAux fuel (n / 10) ++ [48 + n % 10]

/-- Output of `printf "%u"`: the decimal digits of `n`, no leading zeros. -/
def fmtU (n : Nat) : List Nat := decDigitsAux (n + 1) n

/-- Output of `printf "%d"`: a minus sign for a negative value, then the
decimal digits. -/
def fmtD (x : Int) : List Nat :=
  if x < 0 then 45 :: fmtU x.natAbs else fmtU x.natAbs

/-- C `snprintf(buf, size, ...)`: the formatted output `out` is cut to
`size - 1` bytes. -/
def snprintf (size : Nat) (out : List Nat) : List Nat := out.take (size - 1)

/-- C `strlcpy(dst, src, size)`: at most `size - 1` bytes of `src`. -/
def strlcpy (src : List Nat) (size : Nat) : List Nat := src.take (size - 1)

/-- C `strcat(dst, src)`. -/
def strcat (dst src : List Nat) : List Nat := dst ++ src

/-- C `memcpy(block + off, src, len)`. Writing a byte outside the block, or
reading more than `src` holds, is undefined behaviour (`none`). -/
def memcpy (block : List Nat) (off : Nat) (src : List Nat) (len : Nat) :
    Option (List Nat) :=
  if len = 0 then some block
  else if off + len ≤ block.length ∧ len ≤ src.length then
    some (block.take off ++ src.take len ++ block.drop (off + len))
  else none

/-- The assignment `block[i] = v`; outside the block it is undefined
behaviour (`none`). -/
def storeByte (block : List Nat) (i : Nat) (v : Nat) : Option (List Nat) :=
  if i < block.length then some (block.set i v) else none

/-! ## Strings of the source -/

/-- Bytes of `"/status"`. -/
def litStatus : List Nat := [47, 115, 116, 97, 116, 117, 115]

/-- Bytes of `"/brightness"`. -/
def litBrightness : List Nat :=
  [47, 98, 114, 105, 103, 104, 116, 110, 101, 115, 115]

/-- Bytes of `"/rgb"`. -/
def litRgb : List Nat := [47, 114, 103, 98]

/-- Bytes of `"1"`. -/
def litOne : List Nat := [49]

/-- Bytes of `"0"`. -/
def litZero : List Nat := [48]

/-- Bytes of an ASCII string. -/
def bytes (s : String) : List Nat := s.toList.map Char.toNat

/-! ## State -/

/-- Argument of `stateUpdated` / `colorUpdated`. Only
`CALL_MODE_DIRECT_CHANGE` is used in `mqtt.cpp`. -/
inductive CallMode where
  | CALL_MODE_DIRECT_CHANGE
  deriving DecidableEq, Repr

/-- Calls made by `mqtt.cpp` to its collaborators. -/
inductive Event where
  /-- The call `stateUpdated(mode)`. -/
  | stateUpdated (mode : CallMode)
  /-- The call `colorUpdated(mode)`. -/
  | colorUpdated (mode : CallMode)
  /-- The call `UsermodManager::onMqttMessage(topic, payloadStr)`: the topic
  string and the memory block `payloadStr` points to. -/
  | usermodOnMqttMessage (topic : List Nat) (payloadStr : List Nat)
  /-- The call `mqtt->publish(topic, qos, retain, payload)`. -/
  | publish (topic : List Nat) (qos : Nat) (retain : Bool) (payload : List Nat)
  deriving DecidableEq, Repr

/-- Globals read or written by `mqtt.cpp`, the static `payloadStr` of
`onMqttMessage`, and the trace of calls to collaborators. `col0 .. col3`
are `col[0] .. col[3]`. -/
structure State where
  bri : Nat
  briLast : Nat
  col0 : Nat
  col1 : Nat
  col2 : Nat
  col3 : Nat
  ignoreStatusTopic : Bool
  ignoreBrightnessTopic : Bool
  ignoreRgbTopic : Bool
  /-- Static `payloadStr`: `none` is the null pointer, `some block` a block
  obtained from `new char[...]`. -/
  payloadStr : Option (List Nat)
  trace : List Event
  deriving DecidableEq, Repr

/-- Configuration read by `mqtt.cpp`: `mqttDeviceTopic`, `mqttGroupTopic`,
`retainMqttMsg` and the constant `MQTT_MAX_TOPIC_LEN` of `const.h`. -/
structure Config where
  mqttDeviceTopic : List Nat
  mqttGroupTopic : List Nat
  retainMqttMsg : Bool
  MQTT_MAX_TOPIC_LEN : Nat
  deriving DecidableEq, Repr

/-! ## Parsers (lines 23 - 73) -/

/-- `parseMQTTStatusPayload(char* payload)`, lines 23 - 38. -/
def parseMQTTStatusPayload (st : State) (payload : List Nat) : State :=
  if st.ignoreStatusTopic then
    { st with ignoreStatusTopic := false }
  else if strcmp (cstr payload) litOne = 0 then
    { st with
      bri := if st.briLast > 0 then st.briLast else 255
      trace := st.trace ++ [Event.stateUpdated CallMode.CALL_MODE_DIRECT_CHANGE] }
  else if strcmp (cstr payload) litZero = 0 then
    { st with
      briLast := st.bri
      bri := 0
      trace := st.trace ++ [Event.stateUpdated CallMode.CALL_MODE_DIRECT_CHANGE] }
  else st

/-- `parseMQTTBrightnessPayload(char* payload)`, lines 40 - 52. The result
of `strtoul` is stored in a `uint8_t` before the comparison with 255. -/
def parseMQTTBrightnessPayload (st : State) (payload : List Nat) : State :=
  if st.ignoreBrightnessTopic then
    { st with ignoreBrightnessTopic := false }
  else
    let brightness : Nat := strtoul (cstr payload) % 256
    if brightness ≤ 255 then
      { st with
        bri := brightness
        trace := st.trace ++ [Event.stateUpdated CallMode.CALL_MODE_DIRECT_CHANGE] }
    else st

/-- `parseMQTTRgbPayload(char* payload)`, lines 54 - 73. `r`, `g`, `b` are
not initialised in the source; they are read only when `sscanf` has
assigned them, so their value before the call (here 0) is never used. -/
def parseMQTTRgbPayload (st : State) (payload : List Nat) : State :=
  if st.ignoreRgbTopic then
    { st with ignoreRgbTopic := false }
  else
    let sc := sscanf4 (cstr payload) 0 0 0 (-1)
    if sc.fields ≥ 3 then
      let st1 : State :=
        { st with
          col0 := (constrain sc.r 0 255).toNat
          col1 := (constrain sc.g 0 255).toNat
          col2 := (constrain sc.b 0 255).toNat }
      let st2 : State :=
        if sc.fields = 4 then { st1 with col3 := (constrain sc.w 0 255).toNat }
        else st1
      { st2 with
        trace := st2.trace ++ [Event.colorUpdated CallMode.CALL_MODE_DIRECT_CHANGE] }
    else st

/-! ## Message handler (lines 101 - 161) -/

/-- One invocation of `onMqttMessage` by the MQTT client: the arguments
`topic`, `payload` (`none` is `nullptr`, `some chunk` the readable bytes the
pointer refers to), `len`, `index`, `total`, and the outcome `fresh` of
`new char[total+1]` should the call reach line 114: `none` when no memory is
available (null pointer), `some f` for a new block whose byte `i` initially
holds `f i` (the block is not initialised by `new`). -/
structure Call where
  topic : List Nat
  payload : Option (List Nat)
  len : Nat
  index : Nat
  total : Nat
  fresh : Option (Nat → Nat)

/-- The block returned by a successful `new char[n]` with initial contents
`f`. -/
def newBlock (n : Nat) (f : Nat → Nat) : List Nat := (List.range n).map f

/-- Lines 129 - 160 of `onMqttMessage`: routing of the completed payload
held in the block `buf` (the block `payloadStr` points to at that point),
ending with `delete[] payloadStr; payloadStr = nullptr`. Nothing in these
lines reads the field `payloadStr` of the state before it is set to null. -/
def onMqttMessageRoute (cfg : Config) (st : State) (topic : List Nat)
    (buf : List Nat) : State :=
  let stripped : Option (List Nat) :=
    if strncmp topic cfg.mqttDeviceTopic (strlen cfg.mqttDeviceTopic) = 0 then
      some (topic.drop (strlen cfg.mqttDeviceTopic))
    else if strncmp topic cfg.mqttGroupTopic (strlen cfg.mqttGroupTopic) = 0 then
      some (topic.drop (strlen cfg.mqttGroupTopic))
    else none
  match stripped with
  | none =>
    { st with
      trace := st.trace ++ [Event.usermodOnMqttMessage topic buf]
      payloadStr := none }
  | some t =>
    let st1 : State :=
      if strcmp t litStatus = 0 then parseMQTTStatusPayload st buf
      else if strcmp t litBrightness = 0 then parseMQTTBrightnessPayload st buf
      else if strcmp t litRgb = 0 then parseMQTTRgbPayload st buf
      else if strlen t ≠ 0 then
        { st with trace := st.trace ++ [Event.usermodOnMqttMessage t buf] }
      else st
    { st1 with payloadStr := none }

/-- `onMqttMessage(topic, payload, properties, len, index, total)`, lines
101 - 161. `none` is undefined behaviour (a write outside the block). The
sums `total+1` and `index + len` are computed in `size_t`. -/
def onMqttMessage (cfg : Config) (st : State) (c : Call) : Option State :=
  match c.payload with
  | none => some st
  | some chunk =>
    let ps : Option (List Nat) :=
      if c.index = 0 then c.fresh.map (newBlock ((c.total + 1) % SIZE_MOD))
      else st.payloadStr
    match ps with
    | none => some { st with payloadStr := none }
    | some block =>
      match memcpy block c.index chunk c.len with
      | none => none
      | some block1 =>
        if (c.index + c.len) % SIZE_MOD ≥ c.total then
          match storeByte block1 c.total 0 with
          | none => none
          | some block2 =>
            some (onMqttMessageRoute cfg st c.topic block2)
        else some { st with payloadStr := some block1 }

/-- Successive invocations of `onMqttMessage`, in order. -/
def feed (cfg : Config) (st : State) : List Call → Option State
  | [] => some st
  | c :: cs =>
    match onMqttMessage cfg st c with
    | none => none
    | some st1 => feed cfg st1 cs

/-! ## Publisher (lines 163 - 195) -/

/-- `publishMqtt()`, lines 163 - 195; `connected` is the value of
`WLED_MQTT_CONNECTED`. -/
def publishMqtt (cfg : Config) (connected : Bool) (st : State) : State :=
  if !connected then st
  else
    -- Publish status
    let st1 : State := { st with ignoreStatusTopic := true }
    let topic1 := strcat (strlcpy cfg.mqttDeviceTopic (cfg.MQTT_MAX_TOPIC_LEN + 1)) litStatus
    let payload1 := snprintf 32 (fmtD (if st1.bri > 0 then 1 else 0))
    let st2 : State :=
      { st1 with trace := st1.trace ++ [Event.publish topic1 0 cfg.retainMqttMsg payload1] }
    -- Publish brightness
    let st3 : State := { st2 with ignoreBrightnessTopic := true }
    let topic2 := strcat (strlcpy cfg.mqttDeviceTopic (cfg.MQTT_MAX_TOPIC_LEN + 1)) litBrightness
    let payload2 := snprintf 32 (fmtU st3.bri)
    let st4 : State :=
      { st3 with trace := st3.trace ++ [Event.publish topic2 0 cfg.retainMqttMsg payload2] }
    -- Publish RGB(W)
    let st5 : State := { st4 with ignoreRgbTopic := true }
    let topic3 := strcat (strlcpy cfg.mqttDeviceTopic (cfg.MQTT_MAX_TOPIC_LEN + 1)) litRgb
    let payload3 :=
      if st5.col3 > 0 then
        snprintf 32 (fmtD st5.col0 ++ [44] ++ fmtD st5.col1 ++ [44] ++ fmtD st5.col2
          ++ [44] ++ fmtD st5.col3)
      else
        snprintf 32 (fmtD st5.col0 ++ [44] ++ fmtD st5.col1 ++ [44] ++ fmtD st5.col2)
    { st5 with trace := st5.trace ++ [Event.publish topic3 0 cfg.retainMqttMsg payload3] }

/-- The calls `mqtt->publish(...)` of `publishMqtt()`, lines 163 - 195, in
order, each with the state in which the call is issued (the globals as they
are when control passes to the MQTT client). -/
def publishMqttCalls (cfg : Config) (connected : Bool) (st : State) :
    List (State × Event) :=
  if !connected then []
  else
    -- Publish status
    let st1 : State := { st with ignoreStatusTopic := true }
    let topic1 := strcat (strlcpy cfg.mqttDeviceTopic (cfg.MQTT_MAX_TOPIC_LEN + 1)) litStatus
    let payload1 := snprintf 32 (fmtD (if st1.bri > 0 then 1 else 0))
    let call1 := Event.publish topic1 0 cfg.retainMqttMsg payload1
    let st2 : State := { st1 with trace := st1.trace ++ [call1] }
    -- Publish brightness
    let st3 : State := { st2 with ignoreBrightnessTopic := true }
    let topic2 := strcat (strlcpy cfg.mqttDeviceTopic (cfg.MQTT_MAX_TOPIC_LEN + 1)) litBrightness
    let payload2 := snprintf 32 (fmtU st3.bri)
    let call2 := Event.publish topic2 0 cfg.retainMqttMsg payload2
    let st4 : State := { st3 with trace := st3.trace ++ [call2] }
    -- Publish RGB(W)
    let st5 : State := { st4 with ignoreRgbTopic := true }
    let topic3 := strcat (strlcpy cfg.mqttDeviceTopic (cfg.MQTT_MAX_TOPIC_LEN + 1)) litRgb
    let payload3 :=
      if st5.col3 > 0 then
        snprintf 32 (fmtD st5.col0 ++ [44] ++ fmtD st5.col1 ++ [44] ++ fmtD st5.col2
          ++ [44] ++ fmtD st5.col3)
      else
        snprintf 32 (fmtD st5.col0 ++ [44] ++ fmtD st5.col1 ++ [44] ++ fmtD st5.col2)
    let call3 := Event.publish topic3 0 cfg.retainMqttMsg payload3
    [(st1, call1), (st3, call2), (st5, call3)]

/-! ## Test harness -/

/-- The calls that deliver the chunks `chunks` of one message of `total`
bytes in order: the first at offset `off`, each next one at the offset where
the previous one ended. `fresh i` is the outcome of the allocation in the
`i`-th call. -/
def fragmentCalls (topic : List Nat) (total : Nat) (fresh : Nat → Option (Nat → Nat)) :
    Nat → Nat → List (List Nat) → List Call
  | _, _, [] => []
  | i, off, ch :: rest =>
    { topic := topic, payload := some ch, len := ch.length, index := off,
      total := total, fresh := fresh i }
      :: fragmentCalls topic total fresh (i + 1) (off + ch.length) rest

/-- Delivery of a whole message in a single call. -/
def wholeCall (topic payload : List Nat) (fresh : Option (Nat → Nat)) : Call :=
  { topic := topic, payload := some payload, len := payload.length, index := 0,
    total := payload.length, fresh := fresh }

/-- The `(topic, payloadStr)` arguments of the calls of the extension hook
`UsermodManager::onMqttMessage` in a trace. -/
def hookCalls : List Event → List (List Nat × List Nat)
  | [] => []
  | Event.usermodOnMqttMessage t p :: es => (t, p) :: hookCalls es
  | _ :: es => hookCalls es

/-- The `(topic, payload)` pairs of the `publish` calls in a trace. -/
def publishedPairs : List Event → List (List Nat × List Nat)
  | [] => []
  | Event.publish t _ _ p :: es => (t, p) :: publishedPairs es
  | _ :: es => publishedPairs es

/-- The `(topic, payload)` pairs that `publishMqtt` publishes from the state
`st` when connected. -/
def publishedBy (cfg : Config) (st : State) : List (List Nat × List Nat) :=
  publishedPairs ((publishMqtt cfg true st).trace.drop st.trace.length)

/-- Running `publishMqtt()` `n` times in a row while connected, with no
inbound message in between. -/
def publishMqttTimes (cfg : Config) : Nat → State → State
  | 0, st => st
  | n + 1, st => publishMqtt cfg true (publishMqttTimes cfg n st)

/-- A device state used in examples. -/
def st0 : State :=
  { bri := 100, briLast := 50, col0 := 1, col1 := 2, col2 := 3, col3 := 4,
    ignoreStatusTopic := false, ignoreBrightnessTopic := false,
    ignoreRgbTopic := false, payloadStr := none, trace := [] }

/-- A configuration used in examples: device topic `"wled/a"`, group topic
`"wled/all"`. -/
def cfg0 : Config :=
  { mqttDeviceTopic := [119, 108, 101, 100, 47, 97],
    mqttGroupTopic := [119, 108, 101, 100, 47, 97, 108, 108],
    retainMqttMsg := false, MQTT_MAX_TOPIC_LEN := 32 }

end Mqtt

namespace Mqtt

/-! ## Lemmas on the C library model -/

/-- The byte lists of the literals are the ASCII codes of the strings of the
source. -/
theorem literals_ascii :
    litStatus = bytes "/status" ∧ litBrightness = bytes "/brightness"
      ∧ litRgb = bytes "/rgb" ∧ litOne = bytes "1" ∧ litZero = bytes "0" := by
  decide

theorem strcmp_eq_zero_iff (a b : List Nat) : strcmp a b = 0 ↔ a = b := by
  induction a generalizing b with
  | nil => cases b <;> simp [strcmp]
  | cons x xs ih =>
    cases b with
    | nil => simp [strcmp]
    | cons y ys =>
      by_cases hxy : x = y
      · simp [strcmp, hxy, ih]
      · by_cases hlt : x < y <;> simp [strcmp, hxy, hlt]

theorem strncmp_eq_zero_iff (t d : List Nat) :
    strncmp t d (strlen d) = 0 ↔ d <+: t := by
  induction d generalizing t with
  | nil => simp [strlen, strncmp]
  | cons y ys ih =>
    cases t with
    | nil => simp [strlen, strncmp]
    | cons x xs =>
      by_cases hxy : x = y
      · have := ih xs
        simp only [strlen] at this
        simp [strlen, strncmp, hxy, this, List.cons_prefix_cons]
      · have hyx : ¬ y = x := fun h => hxy h.symm
        by_cases hlt : x < y <;>
          simp [strlen, strncmp, hxy, hyx, hlt, List.cons_prefix_cons]

theorem strncmp_append (d s : List Nat) : strncmp (d ++ s) d (strlen d) = 0 :=
  (strncmp_eq_zero_iff (d ++ s) d).2 (List.prefix_append d s)

theorem digitsValue_append (acc : Nat) (l : List Nat) (d : Nat) :
    digitsValue acc (l ++ [d]) = 10 * digitsValue acc l + (d - 48) := by
  induction l generalizing acc with
  | nil => rfl
  | cons x xs ih => exact ih _

theorem decDigitsAux_ne_nil (fuel n : Nat) : decDigitsAux (fuel + 1) n ≠ [] := by
  unfold decDigitsAux
  split <;> simp

theorem decDigitsAux_isdigit (fuel n : Nat) :
    ∀ d ∈ decDigitsAux fuel n, isdigit d = true := by
  induction fuel generalizing n with
  | zero => simp [decDigitsAux]
  | succ k ih =>
    intro d hd
    unfold decDigitsAux at hd
    split at hd
    · simp at hd
      subst hd
      simp [isdigit]
      omega
    · simp at hd
      rcases hd with hd | hd
      · exact ih _ d hd
      · subst hd
        simp [isdigit]
        omega

theorem digitsValue_decDigitsAux (fuel n : Nat) (h : n < fuel) :
    digitsValue 0 (decDigitsAux fuel n) = n := by
  induction fuel generalizing n with
  | zero => omega
  | succ k ih =>
    unfold decDigitsAux
    split
    · show 10 * 0 + (48 + n - 48) = n
      omega
    · rw [digitsValue_append, ih (n / 10) (by omega)]
      omega

theorem fmtU_ne_nil (n : Nat) : fmtU n ≠ [] := decDigitsAux_ne_nil n n

theorem fmtU_isdigit (n : Nat) : ∀ d ∈ fmtU n, isdigit d = true :=
  decDigitsAux_isdigit (n + 1) n

theorem digitsValue_fmtU (n : Nat) : digitsValue 0 (fmtU n) = n :=
  digitsValue_decDigitsAux (n + 1) n (by omega)

/-- A run of digits followed by input that does not start with a digit is
read as a whole. -/
theorem takeWhile_digits (ds tail : List Nat) (hds : ∀ d ∈ ds, isdigit d = true)
    (htail : ∀ c, tail.head? = some c → isdigit c = false) :
    (ds ++ tail).takeWhile isdigit = ds ∧ (ds ++ tail).dropWhile isdigit = tail := by
  induction ds with
  | nil =>
    cases tail with
    | nil => simp
    | cons c cs =>
      have := htail c (by simp)
      simp [List.takeWhile, List.dropWhile, this]
  | cons x xs ih =>
    have hx := hds x (by simp)
    have := ih (fun d hd => hds d (by simp [hd]))
    simp [List.takeWhile, List.dropWhile, hx, this]

theorem takeSign_digit (d : Nat) (t : List Nat) (hd : isdigit d = true) :
    takeSign (d :: t) = (false, d :: t) := by
  have h1 : d ≠ 45 := by rintro rfl; simp [isdigit] at hd
  have h2 : d ≠ 43 := by rintro rfl; simp [isdigit] at hd
  unfold takeSign
  split
  · next h => simp at h; omega
  · next h => simp at h; omega
  · rfl

theorem dropWhile_isspace_digit (d : Nat) (t : List Nat) (hd : isdigit d = true) :
    (d :: t).dropWhile isspace = d :: t := by
  have : isspace d = false := by
    simp [isdigit] at hd
    simp [isspace]
    omega
  simp [List.dropWhile, this]

/-- `strtoul` reads back the decimal digits of a number within
`unsigned long`, whatever follows that is not a digit. -/
theorem strtoul_fmtU (n : Nat) (tail : List Nat) (hn : n ≤ ULONG_MAX)
    (htail : ∀ c, tail.head? = some c → isdigit c = false) :
    strtoul (fmtU n ++ tail) = n := by
  obtain ⟨d, ds, hds⟩ := List.exists_cons_of_ne_nil (fmtU_ne_nil n)
  have hall := fmtU_isdigit n
  have hd : isdigit d = true := hall d (by simp [hds])
  have htw := takeWhile_digits (fmtU n) tail hall htail
  have hval := digitsValue_fmtU n
  unfold strtoul
  rw [hds] at htw hval ⊢
  simp only [List.cons_append, dropWhile_isspace_digit d _ hd, takeSign_digit d _ hd]
  simp only [List.cons_append] at htw
  rw [htw.1, hval]
  simp
  omega

/-! ## Lemmas on the parsers -/

theorem parseMQTTStatusPayload_one (st : State) (payload : List Nat)
    (h : st.ignoreStatusTopic = false) (h1 : cstr payload = litOne) :
    parseMQTTStatusPayload st payload =
      { st with
        bri := if st.briLast > 0 then st.briLast else 255
        trace := st.trace ++ [Event.stateUpdated CallMode.CALL_MODE_DIRECT_CHANGE] } := by
  simp [parseMQTTStatusPayload, h, strcmp_eq_zero_iff, h1]

theorem parseMQTTStatusPayload_zero (st : State) (payload : List Nat)
    (h : st.ignoreStatusTopic = false) (h0 : cstr payload = litZero) :
    parseMQTTStatusPayload st payload =
      { st with
        briLast := st.bri
        bri := 0
        trace := st.trace ++ [Event.stateUpdated CallMode.CALL_MODE_DIRECT_CHANGE] } := by
  have : litZero ≠ litOne := by decide
  simp [parseMQTTStatusPayload, h, strcmp_eq_zero_iff, h0, this]

theorem parseMQTTStatusPayload_other (st : State) (payload : List Nat)
    (h : st.ignoreStatusTopic = false) (h1 : cstr payload ≠ litOne)
    (h0 : cstr payload ≠ litZero) :
    parseMQTTStatusPayload st payload = st := by
  simp [parseMQTTStatusPayload, h, strcmp_eq_zero_iff, h1, h0]

/-- With the flag clear, the brightness parser always stores the value of
`strtoul` reduced modulo 256 and calls `stateUpdated`. -/
theorem parseMQTTBrightnessPayload_value (st : State) (payload : List Nat)
    (h : st.ignoreBrightnessTopic = false) :
    parseMQTTBrightnessPayload st payload =
      { st with
        bri := strtoul (cstr payload) % 256
        trace := st.trace ++ [Event.stateUpdated CallMode.CALL_MODE_DIRECT_CHANGE] } := by
  have hle : strtoul (cstr payload) % 256 ≤ 255 := by omega
  simp [parseMQTTBrightnessPayload, h, hle]

/-- The C string stored in a block that holds bytes other than NUL and then
a NUL. -/
theorem cstr_append_zero (x rest : List Nat) (hx : ∀ c ∈ x, c ≠ 0) :
    cstr (x ++ 0 :: rest) = x := by
  induction x with
  | nil => simp [cstr]
  | cons a as ih =>
    have ha : a ≠ 0 := hx a (by simp)
    have := ih (fun c hc => hx c (by simp [hc]))
    have hb : (a != 0) = true := by simp [ha]
    simp only [cstr] at this ⊢
    simp [List.takeWhile, hb, this]

theorem fmtU_ne_zero (n : Nat) : ∀ c ∈ fmtU n, c ≠ 0 := by
  intro c hc h0
  have := fmtU_isdigit n c hc
  subst h0
  simp [isdigit] at this

theorem fmtD_natCast (n : Nat) : fmtD (n : Int) = fmtU n := by
  have : ¬ ((n : Int) < 0) := by omega
  simp [fmtD, this]

theorem decDigitsAux_length (fuel : Nat) :
    ∀ n k : Nat, n < 10 ^ (k + 1) → (decDigitsAux fuel n).length ≤ k + 1 := by
  induction fuel with
  | zero => intro n k _; simp [decDigitsAux]
  | succ m ih =>
    intro n k hn
    unfold decDigitsAux
    split
    · simp
    · next h10 =>
      cases k with
      | zero => simp at hn; omega
      | succ j =>
        have : n / 10 < 10 ^ (j + 1) := by
          rw [Nat.div_lt_iff_lt_mul (by omega)]
          rw [Nat.pow_succ] at hn
          exact hn
        have := ih (n / 10) j this
        simp
        omega

/-- A byte value is printed with at most three digits. -/
theorem fmtU_length_le (n : Nat) (h : n ≤ 255) : (fmtU n).length ≤ 3 :=
  decDigitsAux_length (n + 1) n 2 (by omega)

/-! ## Parsers -/

/-- C3. Echo suppression is single-shot: with the ignore flag of a suffix
set, the parser of that suffix changes nothing but that flag (no change of
`bri`, `briLast`, `col`, the other two flags, and no call recorded in the
trace), whatever the payload `p1`; the next payload `p2` for the same parser
is then handled exactly as from the state in which the flag was never set. -/
theorem echo_suppression_single_shot (st : State) (p1 p2 : List Nat) :
    (parseMQTTStatusPayload { st with ignoreStatusTopic := true } p1
        = { st with ignoreStatusTopic := false }
      ∧ parseMQTTStatusPayload
          (parseMQTTStatusPayload { st with ignoreStatusTopic := true } p1) p2
        = parseMQTTStatusPayload { st with ignoreStatusTopic := false } p2)
    ∧ (parseMQTTBrightnessPayload { st with ignoreBrightnessTopic := true } p1
        = { st with ignoreBrightnessTopic := false }
      ∧ parseMQTTBrightnessPayload
          (parseMQTTBrightnessPayload { st with ignoreBrightnessTopic := true } p1) p2
        = parseMQTTBrightnessPayload { st with ignoreBrightnessTopic := false } p2)
    ∧ (parseMQTTRgbPayload { st with ignoreRgbTopic := true } p1
        = { st with ignoreRgbTopic := false }
      ∧ parseMQTTRgbPayload
          (parseMQTTRgbPayload { st with ignoreRgbTopic := true } p1) p2
        = parseMQTTRgbPayload { st with ignoreRgbTopic := false } p2) := by
  have h1 : parseMQTTStatusPayload { st with ignoreStatusTopic := true } p1
      = { st with ignoreStatusTopic := false } := by
    simp [parseMQTTStatusPayload]
  have h2 : parseMQTTBrightnessPayload { st with ignoreBrightnessTopic := true } p1
      = { st with ignoreBrightnessTopic := false } := by
    simp [parseMQTTBrightnessPayload]
  have h3 : parseMQTTRgbPayload { st with ignoreRgbTopic := true } p1
      = { st with ignoreRgbTopic := false } := by
    simp [parseMQTTRgbPayload]
  exact ⟨⟨h1, by rw [h1]⟩, ⟨h2, by rw [h2]⟩, ⟨h3, by rw [h3]⟩⟩

/-- C4. Status semantics with `ignoreStatusTopic` false. Payload exactly
`"1"`: `bri` becomes `briLast` if `briLast > 0` and 255 otherwise, and
`stateUpdated(CALL_MODE_DIRECT_CHANGE)` is called. Payload exactly `"0"`:
`briLast` becomes the old `bri`, `bri` becomes 0 and `stateUpdated` is
called. Every other payload: the state is unchanged and nothing is called.
Nothing else changes (in particular `col`). -/
theorem status_semantics (st : State) (payload : List Nat)
    (h : st.ignoreStatusTopic = false) :
    (cstr payload = litOne →
      parseMQTTStatusPayload st payload =
        { st with
          bri := if st.briLast > 0 then st.briLast else 255
          trace := st.trace ++ [Event.stateUpdated CallMode.CALL_MODE_DIRECT_CHANGE] })
    ∧ (cstr payload = litZero →
      parseMQTTStatusPayload st payload =
        { st with
          briLast := st.bri
          bri := 0
          trace := st.trace ++ [Event.stateUpdated CallMode.CALL_MODE_DIRECT_CHANGE] })
    ∧ (cstr payload ≠ litOne → cstr payload ≠ litZero →
      parseMQTTStatusPayload st payload = st)
    ∧ (parseMQTTStatusPayload st payload).col0 = st.col0
    ∧ (parseMQTTStatusPayload st payload).col1 = st.col1
    ∧ (parseMQTTStatusPayload st payload).col2 = st.col2
    ∧ (parseMQTTStatusPayload st payload).col3 = st.col3 := by
  refine ⟨parseMQTTStatusPayload_one st payload h, parseMQTTStatusPayload_zero st payload h,
    parseMQTTStatusPayload_other st payload h, ?_⟩
  · unfold parseMQTTStatusPayload
    simp only [h]
    split_ifs <;> simp

/-- Witness of `status_semantics`: with `briLast = 77` and `bri = 0` the
payload `"1"` gives `bri = 77`; with `briLast = 0` it gives 255; payload
`"0"` at `bri = 200` gives `briLast = 200`, `bri = 0`; the payloads `""`,
`"01"`, `"1 "` and `"on"` change nothing. -/
theorem status_semantics_witness :
    (parseMQTTStatusPayload { st0 with bri := 0, briLast := 77 } [49, 0]).bri = 77
    ∧ (parseMQTTStatusPayload { st0 with bri := 0, briLast := 0 } [49, 0]).bri = 255
    ∧ (parseMQTTStatusPayload { st0 with bri := 200 } [48, 0]).briLast = 200
    ∧ (parseMQTTStatusPayload { st0 with bri := 200 } [48, 0]).bri = 0
    ∧ parseMQTTStatusPayload st0 [0] = st0
    ∧ parseMQTTStatusPayload st0 [48, 49, 0] = st0
    ∧ parseMQTTStatusPayload st0 [49, 32, 0] = st0
    ∧ parseMQTTStatusPayload st0 [111, 110, 0] = st0 := by
  refine ⟨?_, ?_, ?_, ?_, ?_, ?_, ?_, ?_⟩
  · rw [(status_semantics { st0 with bri := 0, briLast := 77 } [49, 0] (by decide)).1
      (by decide)]
    decide
  · rw [(status_semantics { st0 with bri := 0, briLast := 0 } [49, 0] (by decide)).1
      (by decide)]
    decide
  · rw [(status_semantics { st0 with bri := 200 } [48, 0] (by decide)).2.1 (by decide)]
  · rw [(status_semantics { st0 with bri := 200 } [48, 0] (by decide)).2.1 (by decide)]
  · exact (status_semantics st0 [0] (by decide)).2.2.1 (by decide) (by decide)
  · exact (status_semantics st0 [48, 49, 0] (by decide)).2.2.1 (by decide) (by decide)
  · exact (status_semantics st0 [49, 32, 0] (by decide)).2.2.1 (by decide) (by decide)
  · exact (status_semantics st0 [111, 110, 0] (by decide)).2.2.1 (by decide) (by decide)

/-- C6. The code at the payloads `"256"` and `"300"` with
`ignoreBrightnessTopic` false: the value is reduced modulo 256 when it is
stored in the `uint8_t`, the test `brightness <= 255` passes, `bri` is
overwritten (with 0 and 44) and `stateUpdated` is called. -/
theorem brightness_out_of_range_applied :
    parseMQTTBrightnessPayload st0 [50, 53, 54, 0] =
        { st0 with
          bri := 0
          trace := [Event.stateUpdated CallMode.CALL_MODE_DIRECT_CHANGE] }
    ∧ parseMQTTBrightnessPayload st0 [51, 48, 48, 0] =
        { st0 with
          bri := 44
          trace := [Event.stateUpdated CallMode.CALL_MODE_DIRECT_CHANGE] } := by
  decide

/-- C7, as stated, fails at the payload `"+7"`: after optional white space it
does not start with a decimal digit, yet `strtoul` accepts the sign and `bri`
becomes 7, not 0. -/
theorem unparsable_brightness_counterexample :
    st0.ignoreBrightnessTopic = false
    ∧ ((cstr [43, 55, 0]).dropWhile isspace).takeWhile isdigit = []
    ∧ parseMQTTBrightnessPayload st0 [43, 55, 0] =
        { st0 with
          bri := 7
          trace := [Event.stateUpdated CallMode.CALL_MODE_DIRECT_CHANGE] }
    ∧ (parseMQTTBrightnessPayload st0 [43, 55, 0]).bri ≠ 0 := by
  decide

/-- C7, amended. With `ignoreBrightnessTopic` false, a payload that has no
decimal digit after optional white space and an optional sign (`+` or `-`)
sets `bri` to 0 and calls `stateUpdated(CALL_MODE_DIRECT_CHANGE)`; and for
every `n` in 0..255 the payload that is the decimal string of `n` sets `bri`
to `n` and calls `stateUpdated`. Nothing else changes (`briLast`, `col`). -/
theorem unparsable_brightness_zero (st : State) (payload : List Nat)
    (h : st.ignoreBrightnessTopic = false) :
    ((takeSign ((cstr payload).dropWhile isspace)).2.takeWhile isdigit = [] →
      parseMQTTBrightnessPayload st payload =
        { st with
          bri := 0
          trace := st.trace ++ [Event.stateUpdated CallMode.CALL_MODE_DIRECT_CHANGE] })
    ∧ (∀ n : Nat, n ≤ 255 → cstr payload = fmtU n →
      parseMQTTBrightnessPayload st payload =
        { st with
          bri := n
          trace := st.trace ++ [Event.stateUpdated CallMode.CALL_MODE_DIRECT_CHANGE] }) := by
  rw [parseMQTTBrightnessPayload_value st payload h]
  constructor
  · intro hnd
    have h0 : strtoul (cstr payload) = 0 := by
      unfold strtoul
      simp only [hnd, if_true]
    rw [h0]
  · intro n hn hp
    have h0 : strtoul (cstr payload) = n := by
      have := strtoul_fmtU n [] (by simp [ULONG_MAX]; omega) (by simp)
      rw [hp]
      simpa using this
    rw [h0, Nat.mod_eq_of_lt (by omega)]

/-- Witness of `unparsable_brightness_zero`: the payloads `""` and `"abc"`
set `bri` to 0, and the payload `"128"` sets it to 128. -/
theorem unparsable_brightness_zero_witness :
    (parseMQTTBrightnessPayload st0 [0]).bri = 0
    ∧ (parseMQTTBrightnessPayload st0 [97, 98, 99, 0]).bri = 0
    ∧ (parseMQTTBrightnessPayload st0 [49, 50, 56, 0]).bri = 128 := by
  refine ⟨?_, ?_, ?_⟩
  · rw [(unparsable_brightness_zero st0 [0] (by decide)).1 (by decide)]
  · rw [(unparsable_brightness_zero st0 [97, 98, 99, 0] (by decide)).1 (by decide)]
  · rw [(unparsable_brightness_zero st0 [49, 50, 56, 0] (by decide)).2 128 (by decide)
      (by decide)]

/-! ## Publisher -/

/-- The trace of `publishMqtt` when connected: three `publish` calls are
appended. -/
theorem publishMqtt_trace (cfg : Config) (st : State) :
    (publishMqtt cfg true st).trace = st.trace ++
      [Event.publish (strlcpy cfg.mqttDeviceTopic (cfg.MQTT_MAX_TOPIC_LEN + 1) ++ litStatus)
          0 cfg.retainMqttMsg (snprintf 32 (fmtD (if st.bri > 0 then 1 else 0))),
        Event.publish (strlcpy cfg.mqttDeviceTopic (cfg.MQTT_MAX_TOPIC_LEN + 1) ++ litBrightness)
          0 cfg.retainMqttMsg (snprintf 32 (fmtU st.bri)),
        Event.publish (strlcpy cfg.mqttDeviceTopic (cfg.MQTT_MAX_TOPIC_LEN + 1) ++ litRgb)
          0 cfg.retainMqttMsg
          (if st.col3 > 0 then
            snprintf 32 (fmtD st.col0 ++ [44] ++ fmtD st.col1 ++ [44] ++ fmtD st.col2
              ++ [44] ++ fmtD st.col3)
          else
            snprintf 32 (fmtD st.col0 ++ [44] ++ fmtD st.col1 ++ [44] ++ fmtD st.col2))] := by
  simp [publishMqtt, strcat]

theorem publishedBy_eq (cfg : Config) (st : State) :
    publishedBy cfg st =
      [(strlcpy cfg.mqttDeviceTopic (cfg.MQTT_MAX_TOPIC_LEN + 1) ++ litStatus,
          snprintf 32 (fmtD (if st.bri > 0 then 1 else 0))),
        (strlcpy cfg.mqttDeviceTopic (cfg.MQTT_MAX_TOPIC_LEN + 1) ++ litBrightness,
          snprintf 32 (fmtU st.bri)),
        (strlcpy cfg.mqttDeviceTopic (cfg.MQTT_MAX_TOPIC_LEN + 1) ++ litRgb,
          if st.col3 > 0 then
            snprintf 32 (fmtD st.col0 ++ [44] ++ fmtD st.col1 ++ [44] ++ fmtD st.col2
              ++ [44] ++ fmtD st.col3)
          else
            snprintf 32 (fmtD st.col0 ++ [44] ++ fmtD st.col1 ++ [44] ++ fmtD st.col2))] := by
  unfold publishedBy
  rw [publishMqtt_trace, List.drop_left]
  rfl

/-- C9, as stated, fails at `bri = 100`, `briLast = 50`: the published status
payload is `"1"`, and parsing it on that state sets `bri` to `briLast = 50`. -/
theorem status_round_trip_counterexample :
    st0.ignoreStatusTopic = false
    ∧ st0.bri = 100
    ∧ (publishedBy cfg0 st0).head? =
        some ([119, 108, 101, 100, 47, 97, 47, 115, 116, 97, 116, 117, 115], [49])
    ∧ (parseMQTTStatusPayload st0 ([49] ++ [0])).bri = 50 := by
  decide

/-- C9, amended. The status payload that `publishMqtt` formats from a state
is `"1"` if `bri > 0` and `"0"` otherwise; parsing it on that same state
(`ignoreStatusTopic` false) reproduces the on/off status (`bri > 0` after
exactly when `bri > 0` before) and leaves `col` unchanged; `bri` itself is
reproduced exactly when `bri = 0`, or `briLast = bri`, or `briLast = 0` and
`bri = 255`. -/
theorem status_round_trip (cfg : Config) (st : State)
    (h : st.ignoreStatusTopic = false) :
    ∃ t p, (publishedBy cfg st).head? = some (t, p)
      ∧ p = (if st.bri > 0 then litOne else litZero)
      ∧ ((parseMQTTStatusPayload st (p ++ [0])).bri > 0 ↔ st.bri > 0)
      ∧ ((parseMQTTStatusPayload st (p ++ [0])).bri = st.bri ↔
          (st.bri = 0 ∨ st.briLast = st.bri ∨ (st.briLast = 0 ∧ st.bri = 255)))
      ∧ (parseMQTTStatusPayload st (p ++ [0])).col0 = st.col0
      ∧ (parseMQTTStatusPayload st (p ++ [0])).col1 = st.col1
      ∧ (parseMQTTStatusPayload st (p ++ [0])).col2 = st.col2
      ∧ (parseMQTTStatusPayload st (p ++ [0])).col3 = st.col3 := by
  refine ⟨_, _, by rw [publishedBy_eq]; rfl, ?_⟩
  by_cases hb : st.bri > 0
  · have hp : snprintf 32 (fmtD (if st.bri > 0 then 1 else 0)) = litOne := by
      simp only [hb, if_true]; decide
    rw [hp]
    have hc : cstr (litOne ++ [0]) = litOne := by decide
    rw [parseMQTTStatusPayload_one st (litOne ++ [0]) h hc]
    simp only [hb, if_true, true_and]
    by_cases hl : st.briLast > 0
    · simp [hl]
      omega
    · simp [hl]
      omega
  · have hp : snprintf 32 (fmtD (if st.bri > 0 then 1 else 0)) = litZero := by
      simp only [hb, if_false]; decide
    rw [hp]
    have hc : cstr (litZero ++ [0]) = litZero := by decide
    rw [parseMQTTStatusPayload_zero st (litZero ++ [0]) h hc]
    simp only [hb, if_false, true_and]
    simp
    omega

/-- Witness of `status_round_trip` at `bri = 100`, `briLast = 50`. -/
theorem status_round_trip_witness :
    st0.ignoreStatusTopic = false ∧
    ∃ t p, (publishedBy cfg0 st0).head? = some (t, p)
      ∧ p = (if st0.bri > 0 then litOne else litZero)
      ∧ ((parseMQTTStatusPayload st0 (p ++ [0])).bri > 0 ↔ st0.bri > 0)
      ∧ ((parseMQTTStatusPayload st0 (p ++ [0])).bri = st0.bri ↔
          (st0.bri = 0 ∨ st0.briLast = st0.bri ∨ (st0.briLast = 0 ∧ st0.bri = 255)))
      ∧ (parseMQTTStatusPayload st0 (p ++ [0])).col0 = st0.col0
      ∧ (parseMQTTStatusPayload st0 (p ++ [0])).col1 = st0.col1
      ∧ (parseMQTTStatusPayload st0 (p ++ [0])).col2 = st0.col2
      ∧ (parseMQTTStatusPayload st0 (p ++ [0])).col3 = st0.col3 :=
  ⟨by decide, status_round_trip cfg0 st0 (by decide)⟩

/-! ## Reassembly -/

theorem parseMQTTStatusPayload_payloadStr (st : State) (x : Option (List Nat))
    (p : List Nat) :
    parseMQTTStatusPayload { st with payloadStr := x } p
      = { parseMQTTStatusPayload st p with payloadStr := x } := by
  unfold parseMQTTStatusPayload
  split_ifs <;> rfl

theorem parseMQTTBrightnessPayload_payloadStr (st : State) (x : Option (List Nat))
    (p : List Nat) :
    parseMQTTBrightnessPayload { st with payloadStr := x } p
      = { parseMQTTBrightnessPayload st p with payloadStr := x } := by
  unfold parseMQTTBrightnessPayload
  simp only []
  split_ifs <;> rfl

theorem parseMQTTRgbPayload_payloadStr (st : State) (x : Option (List Nat))
    (p : List Nat) :
    parseMQTTRgbPayload { st with payloadStr := x } p
      = { parseMQTTRgbPayload st p with payloadStr := x } := by
  unfold parseMQTTRgbPayload
  simp only []
  split_ifs <;> rfl

/-- The routing does not depend on the value of `payloadStr` in the state. -/
theorem onMqttMessageRoute_payloadStr (cfg : Config) (st : State)
    (x : Option (List Nat)) (t buf : List Nat) :
    onMqttMessageRoute cfg { st with payloadStr := x } t buf
      = onMqttMessageRoute cfg st t buf := by
  unfold onMqttMessageRoute
  simp only [parseMQTTStatusPayload_payloadStr, parseMQTTBrightnessPayload_payloadStr,
    parseMQTTRgbPayload_payloadStr]
  split
  · rfl
  · split_ifs <;> rfl

theorem memcpy_chunk (blk chunk : List Nat) (off : Nat)
    (h : off + chunk.length ≤ blk.length) :
    memcpy blk off chunk chunk.length
      = some (blk.take off ++ chunk ++ blk.drop (off + chunk.length)) := by
  unfold memcpy
  by_cases hl : chunk.length = 0
  · have : chunk = [] := List.length_eq_zero.mp hl
    subst this
    simp
  · simp [hl, h]

theorem newBlock_length (n : Nat) (f : Nat → Nat) : (newBlock n f).length = n := by
  simp [newBlock]

/-- The block `onMqttMessage` writes to at line 119: a new one for a
fragment at offset 0 (the allocation succeeding), else the current one. -/
theorem block_available (ps : Option (List Nat)) (fr : Option (Nat → Nat))
    (off total : Nat) (done : List Nat)
    (hT : total + 1 < SIZE_MOD) (hfr : ∃ f, fr = some f) (hdone : done.length = off)
    (hinv : off = 0 ∨ ∃ blk, ps = some blk ∧ blk.length = total + 1 ∧ blk.take off = done) :
    ∃ blk, (if off = 0 then fr.map (newBlock ((total + 1) % SIZE_MOD)) else ps) = some blk
      ∧ blk.length = total + 1 ∧ blk.take off = done := by
  by_cases h0 : off = 0
  · obtain ⟨f, rfl⟩ := hfr
    subst h0
    have : done = [] := List.length_eq_zero.mp hdone
    subst this
    refine ⟨newBlock (total + 1) f, ?_, newBlock_length _ _, by simp⟩
    simp [Nat.mod_eq_of_lt hT]
  · rcases hinv with h | ⟨blk, h1, h2, h3⟩
    · exact absurd h h0
    · exact ⟨blk, by simp [h0, h1], h2, h3⟩

/-- A fragment that ends before `total` is stored and nothing else happens. -/
theorem onMqttMessage_incomplete (cfg : Config) (st : State) (ps : Option (List Nat))
    (topic chunk : List Nat) (off total : Nat) (fr : Option (Nat → Nat)) (done : List Nat)
    (hT : total + 1 < SIZE_MOD) (hfr : ∃ f, fr = some f) (hdone : done.length = off)
    (hinv : off = 0 ∨ ∃ blk, ps = some blk ∧ blk.length = total + 1 ∧ blk.take off = done)
    (hlt : off + chunk.length < total) :
    ∃ blk, onMqttMessage cfg { st with payloadStr := ps }
        { topic := topic, payload := some chunk, len := chunk.length, index := off,
          total := total, fresh := fr }
        = some { st with payloadStr := some blk }
      ∧ blk.length = total + 1 ∧ blk.take (off + chunk.length) = done ++ chunk := by
  obtain ⟨blk, hb, hlen, htake⟩ := block_available ps fr off total done hT hfr hdone hinv
  refine ⟨blk.take off ++ chunk ++ blk.drop (off + chunk.length), ?_, ?_, ?_⟩
  · unfold onMqttMessage
    simp only [hb, memcpy_chunk blk chunk off (by omega)]
    have hmod : (off + chunk.length) % SIZE_MOD = off + chunk.length :=
      Nat.mod_eq_of_lt (by omega)
    simp [hmod, hlt]
  · simp
    omega
  · rw [htake, List.take_left' (by simp [hdone])]

/-- A fragment that ends at `total` completes the message: the block then
holds the bytes received so far, this chunk and the terminator, and is
routed. -/
theorem onMqttMessage_complete (cfg : Config) (st : State) (ps : Option (List Nat))
    (topic chunk : List Nat) (off total : Nat) (fr : Option (Nat → Nat)) (done : List Nat)
    (hT : total + 1 < SIZE_MOD) (hfr : ∃ f, fr = some f) (hdone : done.length = off)
    (hinv : off = 0 ∨ ∃ blk, ps = some blk ∧ blk.length = total + 1 ∧ blk.take off = done)
    (heq : off + chunk.length = total) :
    onMqttMessage cfg { st with payloadStr := ps }
        { topic := topic, payload := some chunk, len := chunk.length, index := off,
          total := total, fresh := fr }
      = some (onMqttMessageRoute cfg st topic (done ++ chunk ++ [0])) := by
  subst heq
  obtain ⟨blk, hb, hlen, htake⟩ :=
    block_available ps fr off (off + chunk.length) done hT hfr hdone hinv
  have hmod : (off + chunk.length) % SIZE_MOD = off + chunk.length :=
    Nat.mod_eq_of_lt (by omega)
  have hstore : storeByte (blk.take off ++ chunk ++ blk.drop (off + chunk.length))
      (off + chunk.length) 0 = some (done ++ chunk ++ [0]) := by
    have hl : (done ++ chunk).length = off + chunk.length := by simp [hdone]
    obtain ⟨x, hx⟩ : ∃ x, blk.drop (off + chunk.length) = [x] := by
      have : (blk.drop (off + chunk.length)).length = 1 := by simp; omega
      exact List.length_eq_one.mp this
    unfold storeByte
    rw [htake, hx]
    have hlt : off + chunk.length < (done ++ chunk ++ [x]).length := by simp [hdone]
    rw [if_pos hlt, List.set_append_right _ _ (by omega), hl]
    simp
  unfold onMqttMessage
  simp only [hb, memcpy_chunk blk chunk off (by omega), hmod, ge_iff_le, le_refl,
    if_true, hstore]
  rw [onMqttMessageRoute_payloadStr]

theorem feed_append (cfg : Config) (st : State) (l1 l2 : List Call) :
    feed cfg st (l1 ++ l2) = (feed cfg st l1).bind (fun s => feed cfg s l2) := by
  induction l1 generalizing st with
  | nil => rfl
  | cons c cs ih =>
    simp only [List.cons_append, feed]
    cases onMqttMessage cfg st c with
    | none => rfl
    | some s => exact ih s

theorem fragmentCalls_append (topic : List Nat) (total : Nat)
    (fresh : Nat → Option (Nat → Nat)) (l1 l2 : List (List Nat)) (i off : Nat) :
    fragmentCalls topic total fresh i off (l1 ++ l2)
      = fragmentCalls topic total fresh i off l1
        ++ fragmentCalls topic total fresh (i + l1.length) (off + l1.flatten.length) l2 := by
  induction l1 generalizing i off with
  | nil => simp [fragmentCalls]
  | cons c cs ih =>
    have h := ih (i + 1) (off + c.length)
    have h1 : i + 1 + cs.length = i + (cs.length + 1) := by omega
    have h2 : off + c.length + cs.flatten.length = off + (c.length + cs.flatten.length) := by
      omega
    rw [h1, h2] at h
    simp only [List.cons_append, fragmentCalls, List.length_cons, List.flatten_cons,
      List.length_append]
    exact congrArg _ h

/-- Fragments that all end before `total` are stored one after the other;
the device state and the trace do not change. -/
theorem feed_incomplete (cfg : Config) (st : State) (topic : List Nat) (total : Nat)
    (fresh : Nat → Option (Nat → Nat)) (hT : total + 1 < SIZE_MOD)
    (hfresh : ∀ j, ∃ f, fresh j = some f) :
    ∀ (chunks : List (List Nat)) (i off : Nat) (done : List Nat) (ps : Option (List Nat)),
      done.length = off →
      (off = 0 ∨ ∃ blk, ps = some blk ∧ blk.length = total + 1 ∧ blk.take off = done) →
      off + chunks.flatten.length < total →
      ∃ ps', feed cfg { st with payloadStr := ps }
            (fragmentCalls topic total fresh i off chunks)
          = some { st with payloadStr := ps' }
        ∧ (off + chunks.flatten.length = 0 ∨
            ∃ blk, ps' = some blk ∧ blk.length = total + 1
              ∧ blk.take (off + chunks.flatten.length) = done ++ chunks.flatten) := by
  intro chunks
  induction chunks with
  | nil =>
    intro i off done ps hdone hinv _
    refine ⟨ps, rfl, ?_⟩
    rcases hinv with h | h
    · left; simpa using h
    · right; simpa using h
  | cons c rest ih =>
    intro i off done ps hdone hinv hlt
    simp only [List.flatten_cons, List.length_append] at hlt
    obtain ⟨blk, hstep, hlen, htake⟩ :=
      onMqttMessage_incomplete cfg st ps topic c off total (fresh i) done hT (hfresh i)
        hdone hinv (by omega)
    obtain ⟨ps', hfeed, hinv'⟩ :=
      ih (i + 1) (off + c.length) (done ++ c) (some blk) (by simp [hdone])
        (Or.inr ⟨blk, rfl, hlen, htake⟩) (by omega)
    refine ⟨ps', ?_, ?_⟩
    · simp only [fragmentCalls, feed, hstep]
      exact hfeed
    · simp only [List.flatten_cons, List.length_append, List.append_assoc] at hinv' ⊢
      rw [← Nat.add_assoc]
      exact hinv'

/-- C1, as stated, fails for a split whose last fragment is empty: the
two-byte message `[104, 105]` delivered as the chunks `[104, 105]` (offset 0)
and `[]` (offset 2) on a topic outside both prefixes is handed to the
extension hook by the first call already, not by the last one. -/
theorem reassembly_counterexample :
    feed cfg0 st0 (fragmentCalls [120] 2 (fun _ => some (fun _ => 0)) 0 0 [[104, 105]])
      = some { st0 with trace := [Event.usermodOnMqttMessage [120] [104, 105, 0]] }
    ∧ feed cfg0 st0
        (fragmentCalls [120] 2 (fun _ => some (fun _ => 0)) 0 0 [[104, 105], []])
      = some { st0 with trace := [Event.usermodOnMqttMessage [120] [104, 105, 0]] } := by
  decide

/-- C1, amended. Let `chunks` be a split of the byte sequence `P` (of length
`total`, with `total + 1` representable in `size_t`) into consecutive
fragments whose last fragment is not empty unless it is the only one, and
let every allocation succeed. Feeding the fragments in order, from any
state, (a) changes nothing but the buffer up to the last fragment (no call
is made, no variable is written), and (b) as a whole equals one run of the
routing of lines 129 - 160 on the block `P ++ [0]`: the `total` bytes of `P`
followed by the terminator at index `total`. -/
theorem reassembly_correct (cfg : Config) (st : State) (topic : List Nat)
    (fresh : Nat → Option (Nat → Nat)) (chunks : List (List Nat)) (hne : chunks ≠ [])
    (hlast : chunks.getLast hne ≠ [] ∨ chunks.length = 1)
    (hT : chunks.flatten.length + 1 < SIZE_MOD)
    (hfresh : ∀ j, ∃ f, fresh j = some f) :
    (∃ ps, feed cfg st (fragmentCalls topic chunks.flatten.length fresh 0 0 chunks.dropLast)
        = some { st with payloadStr := ps })
    ∧ feed cfg st (fragmentCalls topic chunks.flatten.length fresh 0 0 chunks)
        = some (onMqttMessageRoute cfg st topic (chunks.flatten ++ [0])) := by
  have hsplit := List.dropLast_append_getLast hne
  have hflat : chunks.flatten = chunks.dropLast.flatten ++ chunks.getLast hne := by
    conv_lhs => rw [← hsplit]
    simp
  have hst : st = { st with payloadStr := st.payloadStr } := rfl
  -- the state after all fragments but the last
  have hinit : ∃ ps, feed cfg st
        (fragmentCalls topic chunks.flatten.length fresh 0 0 chunks.dropLast)
        = some { st with payloadStr := ps }
      ∧ (chunks.dropLast.flatten.length = 0 ∨
          ∃ blk, ps = some blk ∧ blk.length = chunks.flatten.length + 1
            ∧ blk.take chunks.dropLast.flatten.length = chunks.dropLast.flatten) := by
    by_cases hd : chunks.dropLast = []
    · refine ⟨st.payloadStr, ?_, Or.inl (by simp [hd])⟩
      rw [hd]
      rfl
    · have hlen2 : chunks.length ≠ 1 := by
        intro h1
        apply hd
        apply List.length_eq_zero.mp
        simp [h1]
      have hl : chunks.getLast hne ≠ [] := by
        rcases hlast with h | h
        · exact h
        · exact absurd h hlen2
      have hpos : 0 < (chunks.getLast hne).length := List.length_pos.mpr hl
      have hlt : 0 + chunks.dropLast.flatten.length < chunks.flatten.length := by
        rw [hflat, List.length_append]
        omega
      obtain ⟨ps', h1, h2⟩ :=
        feed_incomplete cfg st topic chunks.flatten.length fresh hT hfresh
          chunks.dropLast 0 0 [] st.payloadStr rfl (Or.inl rfl) hlt
      refine ⟨ps', ?_, ?_⟩
      · rw [hst]
        exact h1
      · simpa using h2
  obtain ⟨ps, hfeed, hinv⟩ := hinit
  refine ⟨⟨ps, hfeed⟩, ?_⟩
  have hcalls : fragmentCalls topic chunks.flatten.length fresh 0 0 chunks
      = fragmentCalls topic chunks.flatten.length fresh 0 0 chunks.dropLast
        ++ fragmentCalls topic chunks.flatten.length fresh (0 + chunks.dropLast.length)
            (0 + chunks.dropLast.flatten.length) [chunks.getLast hne] := by
    have h := fragmentCalls_append topic chunks.flatten.length fresh chunks.dropLast
      [chunks.getLast hne] 0 0
    rw [hsplit] at h
    exact h
  rw [hcalls, feed_append, hfeed]
  simp only [Option.bind, fragmentCalls, feed, Nat.zero_add]
  rw [onMqttMessage_complete cfg st ps topic (chunks.getLast hne)
    chunks.dropLast.flatten.length chunks.flatten.length _ chunks.dropLast.flatten hT
    (hfresh _) rfl hinv (by rw [hflat, List.length_append])]
  rw [← hflat]

/-- Witness of `reassembly_correct`: the payload `"1,2,3"` delivered as
`"1,"` and `"2,3"`. -/
theorem reassembly_correct_witness :
    (∃ ps, feed cfg0 st0
        (fragmentCalls [120] 5 (fun _ => some (fun _ => 7)) 0 0 [[49, 44]])
        = some { st0 with payloadStr := ps })
    ∧ feed cfg0 st0
        (fragmentCalls [120] 5 (fun _ => some (fun _ => 7)) 0 0 [[49, 44], [50, 44, 51]])
      = some (onMqttMessageRoute cfg0 st0 [120] ([49, 44, 50, 44, 51] ++ [0])) :=
  reassembly_correct cfg0 st0 [120] (fun _ => some (fun _ => 7)) [[49, 44], [50, 44, 51]]
    (by decide) (Or.inl (by decide)) (by simp [SIZE_MOD]) (fun _ => ⟨_, rfl⟩)

/-! ## Routing -/

theorem hookCalls_append (a b : List Event) :
    hookCalls (a ++ b) = hookCalls a ++ hookCalls b := by
  induction a with
  | nil => rfl
  | cons e es ih => cases e <;> simp [hookCalls, ih]

theorem parseMQTTStatusPayload_hookCalls (st : State) (p : List Nat) :
    hookCalls (parseMQTTStatusPayload st p).trace = hookCalls st.trace := by
  unfold parseMQTTStatusPayload
  split_ifs <;> simp [hookCalls_append, hookCalls]

theorem parseMQTTBrightnessPayload_hookCalls (st : State) (p : List Nat) :
    hookCalls (parseMQTTBrightnessPayload st p).trace = hookCalls st.trace := by
  unfold parseMQTTBrightnessPayload
  simp only []
  split_ifs <;> simp [hookCalls_append, hookCalls]

theorem parseMQTTRgbPayload_hookCalls (st : State) (p : List Nat) :
    hookCalls (parseMQTTRgbPayload st p).trace = hookCalls st.trace := by
  unfold parseMQTTRgbPayload
  simp only []
  split_ifs <;> simp [hookCalls_append, hookCalls]

theorem drop_strlen_append (d s : List Nat) : (d ++ s).drop (strlen d) = s := by
  simp [strlen]

/-- Routing of a topic that starts with the device topic, or with the group
topic and not with the device topic: the rest `s` of the topic selects the
parser or the extension hook. -/
theorem onMqttMessageRoute_stripped (cfg : Config) (st : State) (t s buf : List Nat)
    (ht : t = cfg.mqttDeviceTopic ++ s
      ∨ (¬ cfg.mqttDeviceTopic <+: t ∧ t = cfg.mqttGroupTopic ++ s)) :
    onMqttMessageRoute cfg st t buf =
      { (if strcmp s litStatus = 0 then parseMQTTStatusPayload st buf
          else if strcmp s litBrightness = 0 then parseMQTTBrightnessPayload st buf
          else if strcmp s litRgb = 0 then parseMQTTRgbPayload st buf
          else if strlen s ≠ 0 then
            { st with trace := st.trace ++ [Event.usermodOnMqttMessage s buf] }
          else st) with payloadStr := none } := by
  rcases ht with ht | ⟨hnd, ht⟩
  · subst ht
    unfold onMqttMessageRoute
    simp only [strncmp_append, if_true, drop_strlen_append]
  · subst ht
    have h1 : ¬ strncmp (cfg.mqttGroupTopic ++ s) cfg.mqttDeviceTopic
        (strlen cfg.mqttDeviceTopic) = 0 := by
      rw [strncmp_eq_zero_iff]
      exact hnd
    unfold onMqttMessageRoute
    simp only [h1, if_false, strncmp_append, if_true, drop_strlen_append]

/-- Routing of a topic that starts with neither configured topic. -/
theorem onMqttMessageRoute_foreign (cfg : Config) (st : State) (t buf : List Nat)
    (hd : ¬ cfg.mqttDeviceTopic <+: t) (hg : ¬ cfg.mqttGroupTopic <+: t) :
    onMqttMessageRoute cfg st t buf =
      { st with
        trace := st.trace ++ [Event.usermodOnMqttMessage t buf]
        payloadStr := none } := by
  have h1 : ¬ strncmp t cfg.mqttDeviceTopic (strlen cfg.mqttDeviceTopic) = 0 := by
    rw [strncmp_eq_zero_iff]
    exact hd
  have h2 : ¬ strncmp t cfg.mqttGroupTopic (strlen cfg.mqttGroupTopic) = 0 := by
    rw [strncmp_eq_zero_iff]
    exact hg
  unfold onMqttMessageRoute
  simp only [h1, h2, if_false]

/-- A message delivered whole in a single call (the allocation succeeding)
is routed with the block `p ++ [0]`. -/
theorem onMqttMessage_wholeCall (cfg : Config) (st : State) (t p : List Nat)
    (f : Nat → Nat) (hp : p.length + 1 < SIZE_MOD) :
    onMqttMessage cfg st (wholeCall t p (some f))
      = some (onMqttMessageRoute cfg st t (p ++ [0])) := by
  have h := onMqttMessage_complete cfg st st.payloadStr t p 0 p.length (some f) [] hp
    ⟨f, rfl⟩ rfl (Or.inl rfl) (by simp)
  simpa [wholeCall] using h

/-- C10. Routing of a completed message (lines 129 - 160) with topic `t`,
the block `buf` holding the payload. (1) If `t` is the device topic followed
by `"/status"`, `"/brightness"` or `"/rgb"` (or `t` does not start with the
device topic and is the group topic followed by one of these), the block is
passed to the status, brightness or rgb parser and the extension hook is not
called. (2) If `t` is the device topic followed by a non-empty `s` that is
none of the three literals, the hook is called once with `s` and the block,
and nothing else changes. (3) If `t` starts with neither topic, the hook is
called once with `t` and the block, and nothing else changes. In all cases
`payloadStr` is null afterwards. -/
theorem routing_completed (cfg : Config) (st : State) (t buf : List Nat) :
    (∀ s, (t = cfg.mqttDeviceTopic ++ s
          ∨ (¬ cfg.mqttDeviceTopic <+: t ∧ t = cfg.mqttGroupTopic ++ s)) →
        (s = litStatus →
          onMqttMessageRoute cfg st t buf
            = { parseMQTTStatusPayload st buf with payloadStr := none }
          ∧ hookCalls (onMqttMessageRoute cfg st t buf).trace = hookCalls st.trace)
        ∧ (s = litBrightness →
          onMqttMessageRoute cfg st t buf
            = { parseMQTTBrightnessPayload st buf with payloadStr := none }
          ∧ hookCalls (onMqttMessageRoute cfg st t buf).trace = hookCalls st.trace)
        ∧ (s = litRgb →
          onMqttMessageRoute cfg st t buf
            = { parseMQTTRgbPayload st buf with payloadStr := none }
          ∧ hookCalls (onMqttMessageRoute cfg st t buf).trace = hookCalls st.trace))
    ∧ (∀ s, t = cfg.mqttDeviceTopic ++ s → s ≠ [] → s ≠ litStatus → s ≠ litBrightness →
        s ≠ litRgb →
        onMqttMessageRoute cfg st t buf
          = { st with
              trace := st.trace ++ [Event.usermodOnMqttMessage s buf]
              payloadStr := none })
    ∧ (¬ cfg.mqttDeviceTopic <+: t → ¬ cfg.mqttGroupTopic <+: t →
        onMqttMessageRoute cfg st t buf
          = { st with
              trace := st.trace ++ [Event.usermodOnMqttMessage t buf]
              payloadStr := none }) := by
  refine ⟨?_, ?_, ?_⟩
  · intro s ht
    rw [onMqttMessageRoute_stripped cfg st t s buf ht]
    refine ⟨?_, ?_, ?_⟩
    · rintro rfl
      have e : strcmp litStatus litStatus = 0 := (strcmp_eq_zero_iff _ _).2 rfl
      rw [if_pos e]
      exact ⟨rfl, parseMQTTStatusPayload_hookCalls _ _⟩
    · rintro rfl
      have e1 : ¬ strcmp litBrightness litStatus = 0 := by
        rw [strcmp_eq_zero_iff]; decide
      have e : strcmp litBrightness litBrightness = 0 := (strcmp_eq_zero_iff _ _).2 rfl
      rw [if_neg e1, if_pos e]
      exact ⟨rfl, parseMQTTBrightnessPayload_hookCalls _ _⟩
    · rintro rfl
      have e1 : ¬ strcmp litRgb litStatus = 0 := by
        rw [strcmp_eq_zero_iff]; decide
      have e2 : ¬ strcmp litRgb litBrightness = 0 := by
        rw [strcmp_eq_zero_iff]; decide
      have e : strcmp litRgb litRgb = 0 := (strcmp_eq_zero_iff _ _).2 rfl
      rw [if_neg e1, if_neg e2, if_pos e]
      exact ⟨rfl, parseMQTTRgbPayload_hookCalls _ _⟩
  · intro s ht hne h1 h2 h3
    rw [onMqttMessageRoute_stripped cfg st t s buf (Or.inl ht)]
    simp [strcmp_eq_zero_iff, h1, h2, h3, strlen, hne]
  · intro hd hg
    rw [onMqttMessageRoute_foreign cfg st t buf hd hg]

/-- Witness of `routing_completed` with device topic `"wled/a"`: the topic
`"wled/a/rgb"` runs the rgb parser, `"wled/a/rgbx"` and `"wled/a/RGB"` go to
the hook with the suffix, and `"other/bar"` goes to the hook with the whole
topic. -/
theorem routing_completed_witness :
    onMqttMessageRoute cfg0 st0 [119, 108, 101, 100, 47, 97, 47, 114, 103, 98]
        [49, 44, 50, 44, 51, 0]
      = { parseMQTTRgbPayload st0 [49, 44, 50, 44, 51, 0] with payloadStr := none }
    ∧ onMqttMessageRoute cfg0 st0 [119, 108, 101, 100, 47, 97, 47, 114, 103, 98, 120] [49, 0]
      = { st0 with
          trace := st0.trace ++ [Event.usermodOnMqttMessage [47, 114, 103, 98, 120] [49, 0]]
          payloadStr := none }
    ∧ onMqttMessageRoute cfg0 st0 [119, 108, 101, 100, 47, 97, 47, 82, 71, 66] [49, 0]
      = { st0 with
          trace := st0.trace ++ [Event.usermodOnMqttMessage [47, 82, 71, 66] [49, 0]]
          payloadStr := none }
    ∧ onMqttMessageRoute cfg0 st0 [111, 116, 104, 101, 114, 47, 98, 97, 114] [49, 0]
      = { st0 with
          trace := st0.trace
            ++ [Event.usermodOnMqttMessage [111, 116, 104, 101, 114, 47, 98, 97, 114] [49, 0]]
          payloadStr := none } :=
  ⟨((routing_completed cfg0 st0 [119, 108, 101, 100, 47, 97, 47, 114, 103, 98]
        [49, 44, 50, 44, 51, 0]).1 litRgb (Or.inl (by decide))).2.2 rfl |>.1,
    (routing_completed cfg0 st0 [119, 108, 101, 100, 47, 97, 47, 114, 103, 98, 120]
        [49, 0]).2.1 [47, 114, 103, 98, 120] (by decide) (by decide) (by decide)
        (by decide) (by decide),
    (routing_completed cfg0 st0 [119, 108, 101, 100, 47, 97, 47, 82, 71, 66]
        [49, 0]).2.1 [47, 82, 71, 66] (by decide) (by decide) (by decide) (by decide)
        (by decide),
    (routing_completed cfg0 st0 [111, 116, 104, 101, 114, 47, 98, 97, 114]
        [49, 0]).2.2 (by decide) (by decide)⟩

/-! ## Scanning of formatted numbers -/

theorem toIntSat_of_range (neg : Bool) (n : Nat)
    (h1 : INT_MIN ≤ (if neg then -(n : Int) else (n : Int)))
    (h2 : (if neg then -(n : Int) else (n : Int)) ≤ INT_MAX) :
    toIntSat neg n = (if neg then -(n : Int) else (n : Int)) := by
  unfold toIntSat
  simp only []
  rw [if_neg (by omega), if_neg (by omega)]

/-- The directive `%d` reads back a number printed with `%d`, whatever
follows that is not a digit. -/
theorem scanInt_fmtD (v : Int) (tail : List Nat) (h1 : INT_MIN ≤ v) (h2 : v ≤ INT_MAX)
    (htail : ∀ c, tail.head? = some c → isdigit c = false) :
    scanInt (fmtD v ++ tail) = ScanInt.ok v tail := by
  obtain ⟨d, ds, hds⟩ := List.exists_cons_of_ne_nil (fmtU_ne_nil v.natAbs)
  have hall := fmtU_isdigit v.natAbs
  have hd : isdigit d = true := hall d (by simp [hds])
  have htw := takeWhile_digits (fmtU v.natAbs) tail hall htail
  have hval := digitsValue_fmtU v.natAbs
  rw [hds] at htw hval
  simp only [List.cons_append] at htw
  by_cases hneg : v < 0
  · have hfmt : fmtD v ++ tail = 45 :: (d :: (ds ++ tail)) := by
      simp [fmtD, hneg, hds]
    have hsp : (45 :: (d :: (ds ++ tail))).dropWhile isspace = 45 :: (d :: (ds ++ tail)) := by
      simp [List.dropWhile, isspace]
    have hsg : takeSign (45 :: (d :: (ds ++ tail))) = (true, d :: (ds ++ tail)) := rfl
    have hna : (v.natAbs : Int) = -v := Int.ofNat_natAbs_of_nonpos (by omega)
    have hv : toIntSat true (digitsValue 0 (d :: ds)) = v := by
      rw [hval, toIntSat_of_range true v.natAbs (by simp only [if_true]; omega)
        (by simp only [if_true]; omega)]
      simp only [if_true]
      omega
    unfold scanInt
    rw [hfmt]
    simp only [hsp, hsg, htw.1, htw.2, hv]
    simp
  · have hfmt : fmtD v ++ tail = d :: (ds ++ tail) := by
      simp [fmtD, hneg, hds]
    have hna : (v.natAbs : Int) = v := Int.natAbs_of_nonneg (by omega)
    have hff : (if false = true then -(v.natAbs : Int) else (v.natAbs : Int)) = v := by
      simp only [Bool.false_eq_true, if_false]
      exact hna
    have hv : toIntSat false (digitsValue 0 (d :: ds)) = v := by
      rw [hval, toIntSat_of_range false v.natAbs (by rw [hff]; exact h1)
        (by rw [hff]; exact h2)]
      exact hff
    unfold scanInt
    rw [hfmt]
    simp only [dropWhile_isspace_digit d _ hd, takeSign_digit d _ hd, htw.1, htw.2, hv]
    simp

theorem comma_not_digit (t : List Nat) :
    ∀ c, (44 :: t).head? = some c → isdigit c = false := by
  intro c hc
  simp at hc
  subst hc
  decide

theorem nil_not_digit : ∀ c, ([] : List Nat).head? = some c → isdigit c = false := by
  intro c hc
  simp at hc

/-- The scan of three numbers printed with `"%d,%d,%d"`. -/
theorem sscanf4_three (r g b : Int) (r0 g0 b0 w0 : Int)
    (hr : INT_MIN ≤ r ∧ r ≤ INT_MAX) (hg : INT_MIN ≤ g ∧ g ≤ INT_MAX)
    (hb : INT_MIN ≤ b ∧ b ≤ INT_MAX) :
    sscanf4 (fmtD r ++ [44] ++ fmtD g ++ [44] ++ fmtD b) r0 g0 b0 w0
      = ⟨3, r, g, b, w0⟩ := by
  have e1 : fmtD r ++ [44] ++ fmtD g ++ [44] ++ fmtD b
      = fmtD r ++ (44 :: (fmtD g ++ (44 :: (fmtD b ++ [])))) := by simp
  unfold sscanf4
  rw [e1, scanInt_fmtD r _ hr.1 hr.2 (comma_not_digit _)]
  simp only [scanComma, Option.map]
  rw [scanInt_fmtD g _ hg.1 hg.2 (comma_not_digit _)]
  simp only [scanComma, Option.map]
  rw [scanInt_fmtD b _ hb.1 hb.2 nil_not_digit]

/-- The scan of four numbers printed with `"%d,%d,%d,%d"`, followed by any
input that does not start with a digit. -/
theorem sscanf4_four (r g b w : Int) (tail : List Nat) (r0 g0 b0 w0 : Int)
    (hr : INT_MIN ≤ r ∧ r ≤ INT_MAX) (hg : INT_MIN ≤ g ∧ g ≤ INT_MAX)
    (hb : INT_MIN ≤ b ∧ b ≤ INT_MAX) (hw : INT_MIN ≤ w ∧ w ≤ INT_MAX)
    (htail : ∀ c, tail.head? = some c → isdigit c = false) :
    sscanf4 (fmtD r ++ [44] ++ fmtD g ++ [44] ++ fmtD b ++ [44] ++ fmtD w ++ tail)
        r0 g0 b0 w0
      = ⟨4, r, g, b, w⟩ := by
  have e1 : fmtD r ++ [44] ++ fmtD g ++ [44] ++ fmtD b ++ [44] ++ fmtD w ++ tail
      = fmtD r ++ (44 :: (fmtD g ++ (44 :: (fmtD b ++ (44 :: (fmtD w ++ tail)))))) := by
    simp
  unfold sscanf4
  rw [e1, scanInt_fmtD r _ hr.1 hr.2 (comma_not_digit _)]
  simp only [scanComma, Option.map]
  rw [scanInt_fmtD g _ hg.1 hg.2 (comma_not_digit _)]
  simp only [scanComma, Option.map]
  rw [scanInt_fmtD b _ hb.1 hb.2 (comma_not_digit _)]
  simp only [scanComma, Option.map]
  rw [scanInt_fmtD w _ hw.1 hw.2 htail]

theorem constrain_eq_min_max (x : Int) : constrain x 0 255 = min (max x 0) 255 := by
  unfold constrain
  split_ifs <;> omega

theorem sscanf4_fields_le (s : List Nat) (r0 g0 b0 w0 : Int) :
    (sscanf4 s r0 g0 b0 w0).fields ≤ 4 := by
  unfold sscanf4
  repeat' split
  all_goals simp

/-- The rgb parser in terms of the result of the scan. -/
theorem parseMQTTRgbPayload_scan (st : State) (payload : List Nat)
    (h : st.ignoreRgbTopic = false) :
    ((sscanf4 (cstr payload) 0 0 0 (-1)).fields < 3 →
      parseMQTTRgbPayload st payload = st)
    ∧ ((sscanf4 (cstr payload) 0 0 0 (-1)).fields = 3 →
      parseMQTTRgbPayload st payload =
        { st with
          col0 := (constrain (sscanf4 (cstr payload) 0 0 0 (-1)).r 0 255).toNat
          col1 := (constrain (sscanf4 (cstr payload) 0 0 0 (-1)).g 0 255).toNat
          col2 := (constrain (sscanf4 (cstr payload) 0 0 0 (-1)).b 0 255).toNat
          trace := st.trace ++ [Event.colorUpdated CallMode.CALL_MODE_DIRECT_CHANGE] })
    ∧ ((sscanf4 (cstr payload) 0 0 0 (-1)).fields ≥ 4 →
      parseMQTTRgbPayload st payload =
        { st with
          col0 := (constrain (sscanf4 (cstr payload) 0 0 0 (-1)).r 0 255).toNat
          col1 := (constrain (sscanf4 (cstr payload) 0 0 0 (-1)).g 0 255).toNat
          col2 := (constrain (sscanf4 (cstr payload) 0 0 0 (-1)).b 0 255).toNat
          col3 := (constrain (sscanf4 (cstr payload) 0 0 0 (-1)).w 0 255).toNat
          trace := st.trace ++ [Event.colorUpdated CallMode.CALL_MODE_DIRECT_CHANGE] }) := by
  refine ⟨?_, ?_, ?_⟩
  · intro hk
    have : ¬ (sscanf4 (cstr payload) 0 0 0 (-1)).fields ≥ 3 := by omega
    simp [parseMQTTRgbPayload, h, this]
  · intro hk
    simp [parseMQTTRgbPayload, h, hk]
  · intro hk
    have h4 : (sscanf4 (cstr payload) 0 0 0 (-1)).fields = 4 := by
      have := sscanf4_fields_le (cstr payload) 0 0 0 (-1)
      omega
    simp [parseMQTTRgbPayload, h, h4]

/-- The rgb parser on a payload printed with `"%d,%d,%d"`. -/
theorem parseMQTTRgbPayload_three (st : State) (payload : List Nat) (r g b : Int)
    (h : st.ignoreRgbTopic = false)
    (hr : INT_MIN ≤ r ∧ r ≤ INT_MAX) (hg : INT_MIN ≤ g ∧ g ≤ INT_MAX)
    (hb : INT_MIN ≤ b ∧ b ≤ INT_MAX)
    (hp : cstr payload = fmtD r ++ [44] ++ fmtD g ++ [44] ++ fmtD b) :
    parseMQTTRgbPayload st payload =
      { st with
        col0 := (constrain r 0 255).toNat
        col1 := (constrain g 0 255).toNat
        col2 := (constrain b 0 255).toNat
        trace := st.trace ++ [Event.colorUpdated CallMode.CALL_MODE_DIRECT_CHANGE] } := by
  have hs := sscanf4_three r g b 0 0 0 (-1) hr hg hb
  rw [← hp] at hs
  rw [(parseMQTTRgbPayload_scan st payload h).2.1 (by rw [hs]), hs]

/-- The rgb parser on a payload printed with `"%d,%d,%d,%d"` and followed by
anything that does not start with a digit. -/
theorem parseMQTTRgbPayload_four (st : State) (payload : List Nat) (r g b w : Int)
    (tail : List Nat) (h : st.ignoreRgbTopic = false)
    (hr : INT_MIN ≤ r ∧ r ≤ INT_MAX) (hg : INT_MIN ≤ g ∧ g ≤ INT_MAX)
    (hb : INT_MIN ≤ b ∧ b ≤ INT_MAX) (hw : INT_MIN ≤ w ∧ w ≤ INT_MAX)
    (htail : ∀ c, tail.head? = some c → isdigit c = false)
    (hp : cstr payload
      = fmtD r ++ [44] ++ fmtD g ++ [44] ++ fmtD b ++ [44] ++ fmtD w ++ tail) :
    parseMQTTRgbPayload st payload =
      { st with
        col0 := (constrain r 0 255).toNat
        col1 := (constrain g 0 255).toNat
        col2 := (constrain b 0 255).toNat
        col3 := (constrain w 0 255).toNat
        trace := st.trace ++ [Event.colorUpdated CallMode.CALL_MODE_DIRECT_CHANGE] } := by
  have hs := sscanf4_four r g b w tail 0 0 0 (-1) hr hg hb hw htail
  rw [← hp] at hs
  rw [(parseMQTTRgbPayload_scan st payload h).2.2 (by rw [hs]), hs]

theorem parseMQTTRgbPayload_bri (st : State) (payload : List Nat) :
    (parseMQTTRgbPayload st payload).bri = st.bri
    ∧ (parseMQTTRgbPayload st payload).briLast = st.briLast := by
  unfold parseMQTTRgbPayload
  simp only []
  split_ifs <;> simp

/-! ## Colour payloads -/

/-- C5. RGB[W] parsing and clamping with `ignoreRgbTopic` false. Let `k` be
the return value of the scan `"%d,%d,%d,%d"` of the payload. If `k < 3`
nothing changes and nothing is called. If `k = 3`, `col[0..2]` are the first
three values clamped to 0..255, `col[3]` is unchanged and `colorUpdated` is
called. If `k >= 4`, `col[3]` is the clamped fourth value as well. The
payload `r,g,b` (values in the range of `int`) is scanned with `k = 3`, and
the payload `r,g,b,w` followed by anything that does not continue the fourth
number is scanned with `k = 4`, so what follows the fourth field is ignored.
`bri` and `briLast` never change. -/
theorem rgb_parsing (st : State) (payload : List Nat) (h : st.ignoreRgbTopic = false) :
    ((sscanf4 (cstr payload) 0 0 0 (-1)).fields < 3 →
      parseMQTTRgbPayload st payload = st)
    ∧ ((sscanf4 (cstr payload) 0 0 0 (-1)).fields = 3 →
      parseMQTTRgbPayload st payload =
        { st with
          col0 := (min (max (sscanf4 (cstr payload) 0 0 0 (-1)).r 0) 255).toNat
          col1 := (min (max (sscanf4 (cstr payload) 0 0 0 (-1)).g 0) 255).toNat
          col2 := (min (max (sscanf4 (cstr payload) 0 0 0 (-1)).b 0) 255).toNat
          trace := st.trace ++ [Event.colorUpdated CallMode.CALL_MODE_DIRECT_CHANGE] })
    ∧ ((sscanf4 (cstr payload) 0 0 0 (-1)).fields ≥ 4 →
      parseMQTTRgbPayload st payload =
        { st with
          col0 := (min (max (sscanf4 (cstr payload) 0 0 0 (-1)).r 0) 255).toNat
          col1 := (min (max (sscanf4 (cstr payload) 0 0 0 (-1)).g 0) 255).toNat
          col2 := (min (max (sscanf4 (cstr payload) 0 0 0 (-1)).b 0) 255).toNat
          col3 := (min (max (sscanf4 (cstr payload) 0 0 0 (-1)).w 0) 255).toNat
          trace := st.trace ++ [Event.colorUpdated CallMode.CALL_MODE_DIRECT_CHANGE] })
    ∧ (∀ r g b : Int, (INT_MIN ≤ r ∧ r ≤ INT_MAX) → (INT_MIN ≤ g ∧ g ≤ INT_MAX) →
        (INT_MIN ≤ b ∧ b ≤ INT_MAX) →
        cstr payload = fmtD r ++ [44] ++ fmtD g ++ [44] ++ fmtD b →
        parseMQTTRgbPayload st payload =
          { st with
            col0 := (min (max r 0) 255).toNat
            col1 := (min (max g 0) 255).toNat
            col2 := (min (max b 0) 255).toNat
            trace := st.trace ++ [Event.colorUpdated CallMode.CALL_MODE_DIRECT_CHANGE] })
    ∧ (∀ (r g b w : Int) (tail : List Nat), (INT_MIN ≤ r ∧ r ≤ INT_MAX) →
        (INT_MIN ≤ g ∧ g ≤ INT_MAX) → (INT_MIN ≤ b ∧ b ≤ INT_MAX) →
        (INT_MIN ≤ w ∧ w ≤ INT_MAX) →
        (∀ c, tail.head? = some c → isdigit c = false) →
        cstr payload
          = fmtD r ++ [44] ++ fmtD g ++ [44] ++ fmtD b ++ [44] ++ fmtD w ++ tail →
        parseMQTTRgbPayload st payload =
          { st with
            col0 := (min (max r 0) 255).toNat
            col1 := (min (max g 0) 255).toNat
            col2 := (min (max b 0) 255).toNat
            col3 := (min (max w 0) 255).toNat
            trace := st.trace ++ [Event.colorUpdated CallMode.CALL_MODE_DIRECT_CHANGE] })
    ∧ (parseMQTTRgbPayload st payload).bri = st.bri
    ∧ (parseMQTTRgbPayload st payload).briLast = st.briLast := by
  simp only [← constrain_eq_min_max]
  exact ⟨(parseMQTTRgbPayload_scan st payload h).1, (parseMQTTRgbPayload_scan st payload h).2.1,
    (parseMQTTRgbPayload_scan st payload h).2.2,
    fun r g b hr hg hb hp => parseMQTTRgbPayload_three st payload r g b h hr hg hb hp,
    fun r g b w tail hr hg hb hw ht hp =>
      parseMQTTRgbPayload_four st payload r g b w tail h hr hg hb hw ht hp,
    parseMQTTRgbPayload_bri st payload⟩

/-- Witness of `rgb_parsing`: the payload `"300,-10,255"` gives `(255,0,255)`
with W unchanged, `"10,20,30,40"` gives `(10,20,30,40)`, `"10,20,30,40,50"`
gives the same, and `"10,20"` changes nothing. -/
theorem rgb_parsing_witness :
    parseMQTTRgbPayload st0 [51, 48, 48, 44, 45, 49, 48, 44, 50, 53, 53, 0] =
        { st0 with
          col0 := 255, col1 := 0, col2 := 255
          trace := [Event.colorUpdated CallMode.CALL_MODE_DIRECT_CHANGE] }
    ∧ parseMQTTRgbPayload st0 [49, 48, 44, 50, 48, 44, 51, 48, 44, 52, 48, 0] =
        { st0 with
          col0 := 10, col1 := 20, col2 := 30, col3 := 40
          trace := [Event.colorUpdated CallMode.CALL_MODE_DIRECT_CHANGE] }
    ∧ parseMQTTRgbPayload st0
        [49, 48, 44, 50, 48, 44, 51, 48, 44, 52, 48, 44, 53, 48, 0] =
        { st0 with
          col0 := 10, col1 := 20, col2 := 30, col3 := 40
          trace := [Event.colorUpdated CallMode.CALL_MODE_DIRECT_CHANGE] }
    ∧ parseMQTTRgbPayload st0 [49, 48, 44, 50, 48, 0] = st0 := by
  refine ⟨?_, ?_, ?_, ?_⟩
  · rw [(rgb_parsing st0 [51, 48, 48, 44, 45, 49, 48, 44, 50, 53, 53, 0]
      (by decide)).2.2.2.1 300 (-10) 255 (by decide) (by decide) (by decide) (by decide)]
    decide
  · rw [(rgb_parsing st0 [49, 48, 44, 50, 48, 44, 51, 48, 44, 52, 48, 0]
      (by decide)).2.2.2.2.1 10 20 30 40 [] (by decide) (by decide) (by decide)
      (by decide) (by decide) (by decide)]
    decide
  · rw [(rgb_parsing st0 [49, 48, 44, 50, 48, 44, 51, 48, 44, 52, 48, 44, 53, 48, 0]
      (by decide)).2.2.2.2.1 10 20 30 40 [44, 53, 48] (by decide) (by decide) (by decide)
      (by decide) (by decide) (by decide)]
    decide
  · exact (rgb_parsing st0 [49, 48, 44, 50, 48, 0] (by decide)).1 (by decide)

theorem constrain_byte (n : Nat) (h : n ≤ 255) : (constrain (n : Int) 0 255).toNat = n := by
  unfold constrain
  rw [if_neg (by omega), if_neg (by omega)]
  simp

theorem byte_int_range (n : Nat) (h : n ≤ 255) :
    INT_MIN ≤ (n : Int) ∧ (n : Int) ≤ INT_MAX := by
  simp only [INT_MIN, INT_MAX]
  constructor <;> omega

theorem snprintf_short (out : List Nat) (h : out.length ≤ 31) : snprintf 32 out = out := by
  unfold snprintf
  exact List.take_of_length_le (by omega)

theorem fmtD_byte_ne_zero (n : Nat) : ∀ c ∈ fmtD (n : Int), c ≠ 0 := by
  rw [fmtD_natCast]
  exact fmtU_ne_zero n

theorem fmtD_byte_length (n : Nat) (h : n ≤ 255) : (fmtD (n : Int)).length ≤ 3 := by
  rw [fmtD_natCast]
  exact fmtU_length_le n h

/-- The brightness parser reads back a byte printed with `"%u"`. -/
theorem parseMQTTBrightnessPayload_fmtU (st : State) (n : Nat) (rest : List Nat)
    (h : st.ignoreBrightnessTopic = false) (hn : n ≤ 255) :
    parseMQTTBrightnessPayload st (snprintf 32 (fmtU n) ++ 0 :: rest) =
      { st with
        bri := n
        trace := st.trace ++ [Event.stateUpdated CallMode.CALL_MODE_DIRECT_CHANGE] } := by
  have hlen := fmtU_length_le n hn
  rw [snprintf_short _ (by omega), parseMQTTBrightnessPayload_value st _ h,
    cstr_append_zero _ _ (fmtU_ne_zero n)]
  have := strtoul_fmtU n [] (by simp [ULONG_MAX]; omega) (by simp)
  simp only [List.append_nil] at this
  rw [this, Nat.mod_eq_of_lt (by omega)]

/-- The rgb parser reads back three bytes printed with `"%d,%d,%d"`. -/
theorem parseMQTTRgbPayload_fmt3 (st : State) (a b c : Nat) (rest : List Nat)
    (h : st.ignoreRgbTopic = false) (ha : a ≤ 255) (hb : b ≤ 255) (hc : c ≤ 255) :
    parseMQTTRgbPayload st
        (snprintf 32 (fmtD a ++ [44] ++ fmtD b ++ [44] ++ fmtD c) ++ 0 :: rest) =
      { st with
        col0 := a
        col1 := b
        col2 := c
        trace := st.trace ++ [Event.colorUpdated CallMode.CALL_MODE_DIRECT_CHANGE] } := by
  have la := fmtD_byte_length a ha
  have lb := fmtD_byte_length b hb
  have lc := fmtD_byte_length c hc
  have hnz : ∀ x ∈ fmtD (a : Int) ++ [44] ++ fmtD (b : Int) ++ [44] ++ fmtD (c : Int),
      x ≠ 0 := by
    intro x hx
    simp only [List.mem_append, List.mem_singleton] at hx
    rcases hx with (((hx | hx) | hx) | hx) | hx
    · exact fmtD_byte_ne_zero a x hx
    · omega
    · exact fmtD_byte_ne_zero b x hx
    · omega
    · exact fmtD_byte_ne_zero c x hx
  rw [snprintf_short _ (by simp only [List.length_append, List.length_singleton]; omega)]
  rw [parseMQTTRgbPayload_three st _ a b c h (byte_int_range a ha) (byte_int_range b hb)
    (byte_int_range c hc) (cstr_append_zero _ _ hnz)]
  rw [constrain_byte a ha, constrain_byte b hb, constrain_byte c hc]

/-- The rgb parser reads back four bytes printed with `"%d,%d,%d,%d"`. -/
theorem parseMQTTRgbPayload_fmt4 (st : State) (a b c d : Nat) (rest : List Nat)
    (h : st.ignoreRgbTopic = false) (ha : a ≤ 255) (hb : b ≤ 255) (hc : c ≤ 255)
    (hd : d ≤ 255) :
    parseMQTTRgbPayload st
        (snprintf 32 (fmtD a ++ [44] ++ fmtD b ++ [44] ++ fmtD c ++ [44] ++ fmtD d)
          ++ 0 :: rest) =
      { st with
        col0 := a
        col1 := b
        col2 := c
        col3 := d
        trace := st.trace ++ [Event.colorUpdated CallMode.CALL_MODE_DIRECT_CHANGE] } := by
  have la := fmtD_byte_length a ha
  have lb := fmtD_byte_length b hb
  have lc := fmtD_byte_length c hc
  have ld := fmtD_byte_length d hd
  have hnz : ∀ x ∈ fmtD (a : Int) ++ [44] ++ fmtD (b : Int) ++ [44] ++ fmtD (c : Int)
      ++ [44] ++ fmtD (d : Int), x ≠ 0 := by
    intro x hx
    simp only [List.mem_append, List.mem_singleton] at hx
    rcases hx with (((((hx | hx) | hx) | hx) | hx) | hx) | hx
    · exact fmtD_byte_ne_zero a x hx
    · omega
    · exact fmtD_byte_ne_zero b x hx
    · omega
    · exact fmtD_byte_ne_zero c x hx
    · omega
    · exact fmtD_byte_ne_zero d x hx
  rw [snprintf_short _ (by simp only [List.length_append, List.length_singleton]; omega)]
  rw [parseMQTTRgbPayload_four st _ a b c d [] h (byte_int_range a ha) (byte_int_range b hb)
    (byte_int_range c hc) (byte_int_range d hd) nil_not_digit
    (by rw [cstr_append_zero _ _ hnz, List.append_nil])]
  rw [constrain_byte a ha, constrain_byte b hb, constrain_byte c hc, constrain_byte d hd]

/-- C8. Brightness and colour round trip: for a state with `bri` and
`col[0..3]` in 0..255, `publishMqtt` publishes three payloads; parsing the
brightness payload with `parseMQTTBrightnessPayload` and the rgb payload
with `parseMQTTRgbPayload` (ignore flags false) on that same state gives
`bri` and all four colour channels equal to the original values. The rgb
payload has four fields when `col[3] > 0` and three when `col[3] = 0`. -/
theorem brightness_colour_round_trip (cfg : Config) (st : State)
    (hbri : st.bri ≤ 255) (h0 : st.col0 ≤ 255) (h1 : st.col1 ≤ 255) (h2 : st.col2 ≤ 255)
    (h3 : st.col3 ≤ 255) (hfb : st.ignoreBrightnessTopic = false)
    (hfr : st.ignoreRgbTopic = false) :
    ∃ ts ps tb pb tc pc, publishedBy cfg st = [(ts, ps), (tb, pb), (tc, pc)]
      ∧ pb = fmtU st.bri
      ∧ (st.col3 > 0 → pc = fmtD st.col0 ++ [44] ++ fmtD st.col1 ++ [44] ++ fmtD st.col2
            ++ [44] ++ fmtD st.col3)
      ∧ (st.col3 = 0 → pc = fmtD st.col0 ++ [44] ++ fmtD st.col1 ++ [44] ++ fmtD st.col2)
      ∧ (parseMQTTBrightnessPayload st (pb ++ [0])).bri = st.bri
      ∧ (parseMQTTRgbPayload st (pc ++ [0])).col0 = st.col0
      ∧ (parseMQTTRgbPayload st (pc ++ [0])).col1 = st.col1
      ∧ (parseMQTTRgbPayload st (pc ++ [0])).col2 = st.col2
      ∧ (parseMQTTRgbPayload st (pc ++ [0])).col3 = st.col3 := by
  have lb := fmtU_length_le st.bri hbri
  have l0 := fmtD_byte_length st.col0 h0
  have l1 := fmtD_byte_length st.col1 h1
  have l2 := fmtD_byte_length st.col2 h2
  have l3 := fmtD_byte_length st.col3 h3
  refine ⟨_, _, _, _, _, _, publishedBy_eq cfg st, ?_, ?_, ?_, ?_, ?_⟩
  · exact snprintf_short _ (by omega)
  · intro hw
    rw [if_pos hw]
    exact snprintf_short _ (by simp only [List.length_append, List.length_singleton]; omega)
  · intro hw
    rw [if_neg (by omega)]
    exact snprintf_short _ (by simp only [List.length_append, List.length_singleton]; omega)
  · rw [parseMQTTBrightnessPayload_fmtU st st.bri [] hfb hbri]
  · by_cases hw : st.col3 > 0
    · rw [if_pos hw, parseMQTTRgbPayload_fmt4 st _ _ _ _ [] hfr h0 h1 h2 h3]
      exact ⟨rfl, rfl, rfl, rfl⟩
    · rw [if_neg hw, parseMQTTRgbPayload_fmt3 st _ _ _ [] hfr h0 h1 h2]
      exact ⟨rfl, rfl, rfl, rfl⟩

/-- Witness of `brightness_colour_round_trip` at `bri = 100` and
`col = (1, 2, 3, 4)`. -/
theorem brightness_colour_round_trip_witness :
    ∃ ts ps tb pb tc pc, publishedBy cfg0 st0 = [(ts, ps), (tb, pb), (tc, pc)]
      ∧ pb = fmtU st0.bri
      ∧ (st0.col3 > 0 → pc = fmtD st0.col0 ++ [44] ++ fmtD st0.col1 ++ [44]
            ++ fmtD st0.col2 ++ [44] ++ fmtD st0.col3)
      ∧ (st0.col3 = 0 → pc = fmtD st0.col0 ++ [44] ++ fmtD st0.col1 ++ [44]
            ++ fmtD st0.col2)
      ∧ (parseMQTTBrightnessPayload st0 (pb ++ [0])).bri = st0.bri
      ∧ (parseMQTTRgbPayload st0 (pc ++ [0])).col0 = st0.col0
      ∧ (parseMQTTRgbPayload st0 (pc ++ [0])).col1 = st0.col1
      ∧ (parseMQTTRgbPayload st0 (pc ++ [0])).col2 = st0.col2
      ∧ (parseMQTTRgbPayload st0 (pc ++ [0])).col3 = st0.col3 :=
  brightness_colour_round_trip cfg0 st0 (by decide) (by decide) (by decide) (by decide)
    (by decide) (by decide) (by decide)

/-! ## Echo suppression end to end -/

theorem perm_two {α : Type} (l : List α) (a b : α) (h : l.Perm [a, b]) :
    l = [a, b] ∨ l = [b, a] := by
  have hlen := h.length_eq
  match l, hlen with
  | [x, y], _ =>
    have hx : x ∈ [a, b] := h.subset (by simp)
    simp only [List.mem_cons, List.mem_singleton, List.not_mem_nil, or_false] at hx
    rcases hx with rfl | rfl
    · have := List.perm_singleton.mp h.cons_inv
      left; simp_all
    · have h2 : [x, y].Perm [x, a] := h.trans (List.Perm.swap x a [])
      have := List.perm_singleton.mp h2.cons_inv
      right; simp_all

theorem perm_three {α : Type} (l : List α) (a b c : α) (h : l.Perm [a, b, c]) :
    l = [a, b, c] ∨ l = [a, c, b] ∨ l = [b, a, c] ∨ l = [b, c, a] ∨ l = [c, a, b]
      ∨ l = [c, b, a] := by
  have hlen := h.length_eq
  match l, hlen with
  | [x, y, z], _ =>
    have hx : x ∈ [a, b, c] := h.subset (by simp)
    simp only [List.mem_cons, List.mem_singleton, List.not_mem_nil, or_false] at hx
    rcases hx with rfl | rfl | rfl
    · rcases perm_two [y, z] b c h.cons_inv with h2 | h2 <;> simp_all
    · have h2 : [x, y, z].Perm [x, a, c] := h.trans (List.Perm.swap x a [c])
      rcases perm_two [y, z] a c h2.cons_inv with h3 | h3 <;> simp_all
    · have h2 : [x, y, z].Perm [x, a, b] :=
        h.trans (((List.Perm.swap x b []).cons a).trans (List.Perm.swap x a [b]))
      rcases perm_two [y, z] a b h2.cons_inv with h3 | h3 <;> simp_all

theorem snprintf_length (out : List Nat) : (snprintf 32 out).length + 1 < SIZE_MOD := by
  have : (snprintf 32 out).length ≤ 31 := by
    unfold snprintf
    simp only [List.length_take]
    omega
  simp only [SIZE_MOD]
  omega

/-- A status message that arrives while `ignoreStatusTopic` is set only
clears the flag. -/
theorem echo_status (cfg : Config) (bri briLast c0 c1 c2 c3 : Nat) (fB fR : Bool)
    (ps : Option (List Nat)) (tr : List Event) (out : List Nat) (f : Nat → Nat) :
    onMqttMessage cfg ⟨bri, briLast, c0, c1, c2, c3, true, fB, fR, ps, tr⟩
        (wholeCall (cfg.mqttDeviceTopic ++ litStatus) (snprintf 32 out) (some f))
      = some ⟨bri, briLast, c0, c1, c2, c3, false, fB, fR, none, tr⟩ := by
  rw [onMqttMessage_wholeCall _ _ _ _ _ (snprintf_length out),
    onMqttMessageRoute_stripped _ _ _ litStatus _ (Or.inl rfl)]
  simp [strcmp_eq_zero_iff, parseMQTTStatusPayload]

/-- A brightness message that arrives while `ignoreBrightnessTopic` is set
only clears the flag. -/
theorem echo_brightness (cfg : Config) (bri briLast c0 c1 c2 c3 : Nat) (fS fR : Bool)
    (ps : Option (List Nat)) (tr : List Event) (out : List Nat) (f : Nat → Nat) :
    onMqttMessage cfg ⟨bri, briLast, c0, c1, c2, c3, fS, true, fR, ps, tr⟩
        (wholeCall (cfg.mqttDeviceTopic ++ litBrightness) (snprintf 32 out) (some f))
      = some ⟨bri, briLast, c0, c1, c2, c3, fS, false, fR, none, tr⟩ := by
  have h1 : litBrightness ≠ litStatus := by decide
  rw [onMqttMessage_wholeCall _ _ _ _ _ (snprintf_length out),
    onMqttMessageRoute_stripped _ _ _ litBrightness _ (Or.inl rfl)]
  simp [strcmp_eq_zero_iff, parseMQTTBrightnessPayload, h1]

/-- An rgb message that arrives while `ignoreRgbTopic` is set only clears the
flag. -/
theorem echo_rgb (cfg : Config) (bri briLast c0 c1 c2 c3 : Nat) (fS fB : Bool)
    (ps : Option (List Nat)) (tr : List Event) (out : List Nat) (f : Nat → Nat) :
    onMqttMessage cfg ⟨bri, briLast, c0, c1, c2, c3, fS, fB, true, ps, tr⟩
        (wholeCall (cfg.mqttDeviceTopic ++ litRgb) (snprintf 32 out) (some f))
      = some ⟨bri, briLast, c0, c1, c2, c3, fS, fB, false, none, tr⟩ := by
  have h1 : litRgb ≠ litStatus := by decide
  have h2 : litRgb ≠ litBrightness := by decide
  rw [onMqttMessage_wholeCall _ _ _ _ _ (snprintf_length out),
    onMqttMessageRoute_stripped _ _ _ litRgb _ (Or.inl rfl)]
  simp [strcmp_eq_zero_iff, parseMQTTRgbPayload, h1, h2]

theorem strlcpy_short (d : List Nat) (n : Nat) (h : d.length ≤ n) : strlcpy d (n + 1) = d := by
  unfold strlcpy
  exact List.take_of_length_le (by omega)

/-- C2, as stated, fails when the allocation of line 114 fails for one of
the echoes: the three messages published from `st0` come back, each whole in
a single call, but `new` returns null for the status echo. That call returns
at line 116 before the parser, so `ignoreStatusTopic` is still true
afterwards; the next genuine status message `"0"` is then swallowed (`bri`
stays 100 and `stateUpdated` is not called). -/
theorem echo_loop_counterexample :
    publishedBy cfg0 st0 =
        [([119, 108, 101, 100, 47, 97, 47, 115, 116, 97, 116, 117, 115], [49]),
          ([119, 108, 101, 100, 47, 97, 47, 98, 114, 105, 103, 104, 116, 110, 101, 115, 115],
            [49, 48, 48]),
          ([119, 108, 101, 100, 47, 97, 47, 114, 103, 98], [49, 44, 50, 44, 51, 44, 52])]
    ∧ feed cfg0 (publishMqtt cfg0 true st0)
        [wholeCall [119, 108, 101, 100, 47, 97, 47, 115, 116, 97, 116, 117, 115] [49] none,
          wholeCall
            [119, 108, 101, 100, 47, 97, 47, 98, 114, 105, 103, 104, 116, 110, 101, 115, 115]
            [49, 48, 48] (some (fun _ => 0)),
          wholeCall [119, 108, 101, 100, 47, 97, 47, 114, 103, 98]
            [49, 44, 50, 44, 51, 44, 52] (some (fun _ => 0))]
      = some { publishMqtt cfg0 true st0 with
                ignoreStatusTopic := true
                ignoreBrightnessTopic := false
                ignoreRgbTopic := false
                payloadStr := none }
    ∧ feed cfg0 (publishMqtt cfg0 true st0)
        [wholeCall [119, 108, 101, 100, 47, 97, 47, 115, 116, 97, 116, 117, 115] [49] none,
          wholeCall
            [119, 108, 101, 100, 47, 97, 47, 98, 114, 105, 103, 104, 116, 110, 101, 115, 115]
            [49, 48, 48] (some (fun _ => 0)),
          wholeCall [119, 108, 101, 100, 47, 97, 47, 114, 103, 98]
            [49, 44, 50, 44, 51, 44, 52] (some (fun _ => 0)),
          wholeCall [119, 108, 101, 100, 47, 97, 47, 115, 116, 97, 116, 117, 115] [48]
            (some (fun _ => 0))]
      = some { publishMqtt cfg0 true st0 with
                ignoreStatusTopic := false
                ignoreBrightnessTopic := false
                ignoreRgbTopic := false
                payloadStr := none } := by
  decide

/-- C2, amended. The echo loop is broken end to end: for every device state
and every device topic no longer than `MQTT_MAX_TOPIC_LEN`, when
`publishMqtt` runs while connected and the three `(topic, payload)` pairs it
published are then delivered back to `onMqttMessage`, each whole in a single
call whose allocation (line 114) succeeds, in any order, the resulting state
is the state after the publish with the three ignore flags false (and the
buffer null): `bri`, `briLast` and `col[0..3]` are those before the publish,
and the trace holds no call beyond the three `publish` calls, so neither
`stateUpdated` nor `colorUpdated` was called. -/
theorem echo_loop_broken (cfg : Config) (st : State)
    (hD : cfg.mqttDeviceTopic.length ≤ cfg.MQTT_MAX_TOPIC_LEN)
    (msgs : List (List Nat × List Nat)) (hperm : msgs.Perm (publishedBy cfg st))
    (g : List Nat × List Nat → Nat → Nat) :
    feed cfg (publishMqtt cfg true st)
        (msgs.map (fun m => wholeCall m.1 m.2 (some (g m))))
      = some { publishMqtt cfg true st with
                ignoreStatusTopic := false
                ignoreBrightnessTopic := false
                ignoreRgbTopic := false
                payloadStr := none }
    ∧ (publishMqtt cfg true st).bri = st.bri
    ∧ (publishMqtt cfg true st).briLast = st.briLast
    ∧ (publishMqtt cfg true st).col0 = st.col0
    ∧ (publishMqtt cfg true st).col1 = st.col1
    ∧ (publishMqtt cfg true st).col2 = st.col2
    ∧ (publishMqtt cfg true st).col3 = st.col3 := by
  refine ⟨?_, rfl, rfl, rfl, rfl, rfl, rfl⟩
  have hS : publishMqtt cfg true st
      = ⟨st.bri, st.briLast, st.col0, st.col1, st.col2, st.col3, true, true, true,
          st.payloadStr, (publishMqtt cfg true st).trace⟩ := rfl
  have hrgb : (if st.col3 > 0 then
        snprintf 32 (fmtD st.col0 ++ [44] ++ fmtD st.col1 ++ [44] ++ fmtD st.col2
          ++ [44] ++ fmtD st.col3)
      else snprintf 32 (fmtD st.col0 ++ [44] ++ fmtD st.col1 ++ [44] ++ fmtD st.col2))
      = snprintf 32 (if st.col3 > 0 then
          fmtD st.col0 ++ [44] ++ fmtD st.col1 ++ [44] ++ fmtD st.col2 ++ [44] ++ fmtD st.col3
        else fmtD st.col0 ++ [44] ++ fmtD st.col1 ++ [44] ++ fmtD st.col2) := by
    split_ifs <;> rfl
  rw [publishedBy_eq, strlcpy_short _ _ hD, hrgb] at hperm
  rw [hS]
  rcases perm_three _ _ _ _ hperm with h | h | h | h | h | h <;>
    · subst h
      simp only [List.map, feed, echo_status, echo_brightness, echo_rgb]

/-- Witness of `echo_loop_broken`: the three messages published from `st0`
come back in the order rgb, status, brightness. -/
theorem echo_loop_broken_witness :
    feed cfg0 (publishMqtt cfg0 true st0)
        ([([119, 108, 101, 100, 47, 97, 47, 114, 103, 98], [49, 44, 50, 44, 51, 44, 52]),
          ([119, 108, 101, 100, 47, 97, 47, 115, 116, 97, 116, 117, 115], [49]),
          ([119, 108, 101, 100, 47, 97, 47, 98, 114, 105, 103, 104, 116, 110, 101, 115, 115],
            [49, 48, 48])].map
          (fun m => wholeCall m.1 m.2 (some (fun _ => 0))))
      = some { publishMqtt cfg0 true st0 with
                ignoreStatusTopic := false
                ignoreBrightnessTopic := false
                ignoreRgbTopic := false
                payloadStr := none } :=
  (echo_loop_broken cfg0 st0 (by decide)
    [([119, 108, 101, 100, 47, 97, 47, 114, 103, 98], [49, 44, 50, 44, 51, 44, 52]),
      ([119, 108, 101, 100, 47, 97, 47, 115, 116, 97, 116, 117, 115], [49]),
      ([119, 108, 101, 100, 47, 97, 47, 98, 114, 105, 103, 104, 116, 110, 101, 115, 115],
        [49, 48, 48])]
    (by decide) (fun _ _ => 0)).1

/-! ## Unresolved topics and the topmost topic -/

/-- The routing always ends with `payloadStr = nullptr`. -/
theorem onMqttMessageRoute_null (cfg : Config) (st : State) (t buf : List Nat) :
    (onMqttMessageRoute cfg st t buf).payloadStr = none := by
  simp only [onMqttMessageRoute]
  split_ifs <;> rfl

/-- Routing of a topic whose stripped rest is empty: nothing happens. -/
theorem onMqttMessageRoute_topmost (cfg : Config) (st : State) (t buf : List Nat)
    (ht : t = cfg.mqttDeviceTopic
      ∨ (¬ cfg.mqttDeviceTopic <+: t ∧ t = cfg.mqttGroupTopic)) :
    onMqttMessageRoute cfg st t buf = { st with payloadStr := none } := by
  have h := onMqttMessageRoute_stripped cfg st t [] buf (by simpa using ht)
  rw [h]
  have e1 : ¬ strcmp [] litStatus = 0 := by rw [strcmp_eq_zero_iff]; decide
  have e2 : ¬ strcmp [] litBrightness = 0 := by rw [strcmp_eq_zero_iff]; decide
  have e3 : ¬ strcmp [] litRgb = 0 := by rw [strcmp_eq_zero_iff]; decide
  rw [if_neg e1, if_neg e2, if_neg e3]
  simp [strlen]

/-- Routing of a topic with a known prefix whose rest is neither empty nor
one of the three literals: the hook is called with the rest. -/
theorem onMqttMessageRoute_unknown (cfg : Config) (st : State) (t s buf : List Nat)
    (ht : t = cfg.mqttDeviceTopic ++ s
      ∨ (¬ cfg.mqttDeviceTopic <+: t ∧ t = cfg.mqttGroupTopic ++ s))
    (hne : s ≠ []) (h1 : s ≠ litStatus) (h2 : s ≠ litBrightness) (h3 : s ≠ litRgb) :
    onMqttMessageRoute cfg st t buf =
      { st with
        trace := st.trace ++ [Event.usermodOnMqttMessage s buf]
        payloadStr := none } := by
  rw [onMqttMessageRoute_stripped cfg st t s buf ht]
  simp [strcmp_eq_zero_iff, h1, h2, h3, strlen, hne]

/-- C11, as stated, fails for a message published to the device topic
itself: with device topic `"wled/a"` the topic `"wled/a"` is not a prefix
followed by one of the three literals, yet the hook is not called (line 157,
`topmost topic (ignore)`). -/
theorem hook_unresolved_counterexample :
    (∀ l, l = litStatus ∨ l = litBrightness ∨ l = litRgb →
        [119, 108, 101, 100, 47, 97] ≠ cfg0.mqttDeviceTopic ++ l
        ∧ [119, 108, 101, 100, 47, 97] ≠ cfg0.mqttGroupTopic ++ l)
    ∧ onMqttMessage cfg0 st0 (wholeCall [119, 108, 101, 100, 47, 97] [49] (some (fun _ => 0)))
        = some st0
    ∧ hookCalls (onMqttMessageRoute cfg0 st0 [119, 108, 101, 100, 47, 97] [49, 0]).trace
        = [] := by
  refine ⟨?_, by decide, by decide⟩
  intro l hl
  rcases hl with rfl | rfl | rfl <;> decide

/-- C11, amended. For every completed message (topic `t`, block `buf`) whose
topic is not the device or group topic followed by exactly `"/status"`,
`"/brightness"` or `"/rgb"`, and is neither the device topic itself nor, when
it does not start with the device topic, the group topic itself, the routing
calls `UsermodManager::onMqttMessage` exactly once and does nothing else:
with the rest `s` of the topic when `t` is the device topic followed by `s`,
or does not start with the device topic and is the group topic followed by
`s`, and with the whole topic `t` when it starts with neither. -/
theorem hook_unresolved (cfg : Config) (st : State) (t buf : List Nat)
    (hD : ∀ l, l = litStatus ∨ l = litBrightness ∨ l = litRgb →
      t ≠ cfg.mqttDeviceTopic ++ l ∧ t ≠ cfg.mqttGroupTopic ++ l)
    (htop : t ≠ cfg.mqttDeviceTopic)
    (hgrp : ¬ (t = cfg.mqttGroupTopic ∧ ¬ cfg.mqttDeviceTopic <+: t)) :
    (∀ s, t = cfg.mqttDeviceTopic ++ s →
      onMqttMessageRoute cfg st t buf =
          { st with
            trace := st.trace ++ [Event.usermodOnMqttMessage s buf]
            payloadStr := none }
        ∧ hookCalls (onMqttMessageRoute cfg st t buf).trace
            = hookCalls st.trace ++ [(s, buf)])
    ∧ (∀ s, ¬ cfg.mqttDeviceTopic <+: t → t = cfg.mqttGroupTopic ++ s →
      onMqttMessageRoute cfg st t buf =
          { st with
            trace := st.trace ++ [Event.usermodOnMqttMessage s buf]
            payloadStr := none }
        ∧ hookCalls (onMqttMessageRoute cfg st t buf).trace
            = hookCalls st.trace ++ [(s, buf)])
    ∧ (¬ cfg.mqttDeviceTopic <+: t → ¬ cfg.mqttGroupTopic <+: t →
      onMqttMessageRoute cfg st t buf =
          { st with
            trace := st.trace ++ [Event.usermodOnMqttMessage t buf]
            payloadStr := none }
        ∧ hookCalls (onMqttMessageRoute cfg st t buf).trace
            = hookCalls st.trace ++ [(t, buf)])
    ∧ (∃ x, hookCalls (onMqttMessageRoute cfg st t buf).trace
        = hookCalls st.trace ++ [(x, buf)]) := by
  have hk : ∀ x, onMqttMessageRoute cfg st t buf =
        { st with
          trace := st.trace ++ [Event.usermodOnMqttMessage x buf]
          payloadStr := none } →
      hookCalls (onMqttMessageRoute cfg st t buf).trace
        = hookCalls st.trace ++ [(x, buf)] := by
    intro x hx
    rw [hx]
    simp [hookCalls_append, hookCalls]
  have c1 : ∀ s, t = cfg.mqttDeviceTopic ++ s →
      onMqttMessageRoute cfg st t buf =
        { st with
          trace := st.trace ++ [Event.usermodOnMqttMessage s buf]
          payloadStr := none } := by
    intro s hs
    refine onMqttMessageRoute_unknown cfg st t s buf (Or.inl hs) ?_ ?_ ?_ ?_
    · rintro rfl
      exact htop (by simpa using hs)
    · rintro rfl
      exact (hD litStatus (Or.inl rfl)).1 hs
    · rintro rfl
      exact (hD litBrightness (Or.inr (Or.inl rfl))).1 hs
    · rintro rfl
      exact (hD litRgb (Or.inr (Or.inr rfl))).1 hs
  have c2 : ∀ s, ¬ cfg.mqttDeviceTopic <+: t → t = cfg.mqttGroupTopic ++ s →
      onMqttMessageRoute cfg st t buf =
        { st with
          trace := st.trace ++ [Event.usermodOnMqttMessage s buf]
          payloadStr := none } := by
    intro s hd hs
    refine onMqttMessageRoute_unknown cfg st t s buf (Or.inr ⟨hd, hs⟩) ?_ ?_ ?_ ?_
    · rintro rfl
      exact hgrp ⟨by simpa using hs, hd⟩
    · rintro rfl
      exact (hD litStatus (Or.inl rfl)).2 hs
    · rintro rfl
      exact (hD litBrightness (Or.inr (Or.inl rfl))).2 hs
    · rintro rfl
      exact (hD litRgb (Or.inr (Or.inr rfl))).2 hs
  have c3 : ¬ cfg.mqttDeviceTopic <+: t → ¬ cfg.mqttGroupTopic <+: t →
      onMqttMessageRoute cfg st t buf =
        { st with
          trace := st.trace ++ [Event.usermodOnMqttMessage t buf]
          payloadStr := none } :=
    fun hd hg => onMqttMessageRoute_foreign cfg st t buf hd hg
  refine ⟨fun s hs => ⟨c1 s hs, hk s (c1 s hs)⟩,
    fun s hd hs => ⟨c2 s hd hs, hk s (c2 s hd hs)⟩,
    fun hd hg => ⟨c3 hd hg, hk t (c3 hd hg)⟩, ?_⟩
  by_cases hd : cfg.mqttDeviceTopic <+: t
  · obtain ⟨s, hs⟩ := hd
    exact ⟨s, hk s (c1 s hs.symm)⟩
  · by_cases hg : cfg.mqttGroupTopic <+: t
    · obtain ⟨s, hs⟩ := hg
      exact ⟨s, hk s (c2 s hd hs.symm)⟩
    · exact ⟨t, hk t (c3 hd hg)⟩

/-- Witness of `hook_unresolved`: with device topic `"wled/a"` the topic
`"wled/a/foo"` reaches the hook as `"/foo"`; with group topic `"grp"` the
topic `"grp/x"` reaches it as `"/x"`; the topic `"other/bar"` reaches it
whole. -/
theorem hook_unresolved_witness :
    onMqttMessageRoute cfg0 st0 [119, 108, 101, 100, 47, 97, 47, 102, 111, 111] [49, 0] =
        { st0 with
          trace := st0.trace ++ [Event.usermodOnMqttMessage [47, 102, 111, 111] [49, 0]]
          payloadStr := none }
    ∧ onMqttMessageRoute { cfg0 with mqttGroupTopic := [103, 114, 112] } st0
        [103, 114, 112, 47, 120] [49, 0] =
        { st0 with
          trace := st0.trace ++ [Event.usermodOnMqttMessage [47, 120] [49, 0]]
          payloadStr := none }
    ∧ onMqttMessageRoute cfg0 st0 [111, 116, 104, 101, 114, 47, 98, 97, 114] [49, 0] =
        { st0 with
          trace := st0.trace
            ++ [Event.usermodOnMqttMessage [111, 116, 104, 101, 114, 47, 98, 97, 114] [49, 0]]
          payloadStr := none } :=
  ⟨((hook_unresolved cfg0 st0 [119, 108, 101, 100, 47, 97, 47, 102, 111, 111] [49, 0]
      (by intro l hl; rcases hl with rfl | rfl | rfl <;> decide) (by decide)
      (by decide)).1 [47, 102, 111, 111] (by decide)).1,
    ((hook_unresolved { cfg0 with mqttGroupTopic := [103, 114, 112] } st0
      [103, 114, 112, 47, 120] [49, 0]
      (by intro l hl; rcases hl with rfl | rfl | rfl <;> decide) (by decide)
      (by decide)).2.1 [47, 120] (by decide) (by decide)).1,
    ((hook_unresolved cfg0 st0 [111, 116, 104, 101, 114, 47, 98, 97, 114] [49, 0]
      (by intro l hl; rcases hl with rfl | rfl | rfl <;> decide) (by decide)
      (by decide)).2.2.1 (by decide) (by decide)).1⟩

/-- C12. A message published to the prefix itself is ignored silently: when
the topic of a completed message is exactly the device topic (or exactly the
group topic while not starting with the device topic), the routing changes
nothing (`bri`, `briLast`, `col`, the three ignore flags and the trace are
as before, so no parser ran and the hook was not called) except that
`payloadStr` is reset to null; this is also the outcome of `onMqttMessage`
for such a message delivered whole. -/
theorem topmost_topic_ignored (cfg : Config) (st : State) (t buf : List Nat)
    (ht : t = cfg.mqttDeviceTopic
      ∨ (¬ cfg.mqttDeviceTopic <+: t ∧ t = cfg.mqttGroupTopic)) :
    onMqttMessageRoute cfg st t buf = { st with payloadStr := none }
    ∧ hookCalls (onMqttMessageRoute cfg st t buf).trace = hookCalls st.trace
    ∧ (∀ (p : List Nat) (f : Nat → Nat), p.length + 1 < SIZE_MOD →
        onMqttMessage cfg st (wholeCall t p (some f)) = some { st with payloadStr := none }) := by
  have h := onMqttMessageRoute_topmost cfg st t buf ht
  refine ⟨h, by rw [h], ?_⟩
  intro p f hp
  rw [onMqttMessage_wholeCall cfg st t p f hp, onMqttMessageRoute_topmost cfg st t _ ht]

/-- Witness of `topmost_topic_ignored`: the topic `"wled/a"` with device
topic `"wled/a"`, and the topic `"grp"` with group topic `"grp"`. -/
theorem topmost_topic_ignored_witness :
    onMqttMessageRoute cfg0 st0 [119, 108, 101, 100, 47, 97] [49, 0]
        = { st0 with payloadStr := none }
    ∧ onMqttMessageRoute
        { cfg0 with mqttGroupTopic := [103, 114, 112] } st0 [103, 114, 112] [49, 0]
        = { st0 with payloadStr := none } :=
  ⟨(topmost_topic_ignored cfg0 st0 [119, 108, 101, 100, 47, 97] [49, 0]
      (Or.inl (by decide))).1,
    (topmost_topic_ignored { cfg0 with mqttGroupTopic := [103, 114, 112] } st0
      [103, 114, 112] [49, 0] (Or.inr (by decide))).1⟩

/-! ## Publisher: connection and repeated publishing -/

/-- C14. `publishMqtt()` while not connected is a no-op: no `publish` call
is issued and the state (the three ignore flags, `bri`, `briLast`, `col`,
the trace) is exactly as before, so every parser treats a later inbound
message as it would have without the call. -/
theorem publish_not_connected (cfg : Config) (st : State) (p : List Nat) :
    publishMqtt cfg false st = st
    ∧ publishMqttCalls cfg false st = []
    ∧ parseMQTTStatusPayload (publishMqtt cfg false st) p = parseMQTTStatusPayload st p
    ∧ parseMQTTBrightnessPayload (publishMqtt cfg false st) p
        = parseMQTTBrightnessPayload st p
    ∧ parseMQTTRgbPayload (publishMqtt cfg false st) p = parseMQTTRgbPayload st p := by
  have h : publishMqtt cfg false st = st := rfl
  exact ⟨h, rfl, by rw [h], by rw [h], by rw [h]⟩

theorem publishMqtt_flags (cfg : Config) (st : State) :
    (publishMqtt cfg true st).ignoreStatusTopic = true
    ∧ (publishMqtt cfg true st).ignoreBrightnessTopic = true
    ∧ (publishMqtt cfg true st).ignoreRgbTopic = true :=
  ⟨rfl, rfl, rfl⟩

theorem parseMQTTStatusPayload_suppressed (st : State) (p : List Nat)
    (h : st.ignoreStatusTopic = true) :
    parseMQTTStatusPayload st p = { st with ignoreStatusTopic := false } := by
  simp [parseMQTTStatusPayload, h]

theorem parseMQTTBrightnessPayload_suppressed (st : State) (p : List Nat)
    (h : st.ignoreBrightnessTopic = true) :
    parseMQTTBrightnessPayload st p = { st with ignoreBrightnessTopic := false } := by
  simp [parseMQTTBrightnessPayload, h]

theorem parseMQTTRgbPayload_suppressed (st : State) (p : List Nat)
    (h : st.ignoreRgbTopic = true) :
    parseMQTTRgbPayload st p = { st with ignoreRgbTopic := false } := by
  simp [parseMQTTRgbPayload, h]

/-- C15. No counting of pending suppressions: after `publishMqtt()` has run
two or more times (`n + 2` times) while connected with no inbound message in
between, the three ignore flags are what they are after one call (all
true); of the following inbound messages on a suffix the first (`p1`) only
clears the flag of that suffix and the second (`p2`) is parsed as from the
state whose flag is false. -/
theorem no_counting (cfg : Config) (st : State) (n : Nat) (p1 p2 : List Nat) :
    ((publishMqttTimes cfg (n + 2) st).ignoreStatusTopic
        = (publishMqttTimes cfg 1 st).ignoreStatusTopic
      ∧ (publishMqttTimes cfg (n + 2) st).ignoreBrightnessTopic
        = (publishMqttTimes cfg 1 st).ignoreBrightnessTopic
      ∧ (publishMqttTimes cfg (n + 2) st).ignoreRgbTopic
        = (publishMqttTimes cfg 1 st).ignoreRgbTopic
      ∧ (publishMqttTimes cfg (n + 2) st).ignoreStatusTopic = true
      ∧ (publishMqttTimes cfg (n + 2) st).ignoreBrightnessTopic = true
      ∧ (publishMqttTimes cfg (n + 2) st).ignoreRgbTopic = true)
    ∧ (parseMQTTStatusPayload (publishMqttTimes cfg (n + 2) st) p1
        = { publishMqttTimes cfg (n + 2) st with ignoreStatusTopic := false }
      ∧ parseMQTTStatusPayload
          (parseMQTTStatusPayload (publishMqttTimes cfg (n + 2) st) p1) p2
        = parseMQTTStatusPayload
            { publishMqttTimes cfg (n + 2) st with ignoreStatusTopic := false } p2)
    ∧ (parseMQTTBrightnessPayload (publishMqttTimes cfg (n + 2) st) p1
        = { publishMqttTimes cfg (n + 2) st with ignoreBrightnessTopic := false }
      ∧ parseMQTTBrightnessPayload
          (parseMQTTBrightnessPayload (publishMqttTimes cfg (n + 2) st) p1) p2
        = parseMQTTBrightnessPayload
            { publishMqttTimes cfg (n + 2) st with ignoreBrightnessTopic := false } p2)
    ∧ (parseMQTTRgbPayload (publishMqttTimes cfg (n + 2) st) p1
        = { publishMqttTimes cfg (n + 2) st with ignoreRgbTopic := false }
      ∧ parseMQTTRgbPayload
          (parseMQTTRgbPayload (publishMqttTimes cfg (n + 2) st) p1) p2
        = parseMQTTRgbPayload
            { publishMqttTimes cfg (n + 2) st with ignoreRgbTopic := false } p2) := by
  have hf := publishMqtt_flags cfg (publishMqttTimes cfg (n + 1) st)
  have h1 := publishMqtt_flags cfg (publishMqttTimes cfg 0 st)
  have e : publishMqttTimes cfg (n + 2) st
      = publishMqtt cfg true (publishMqttTimes cfg (n + 1) st) := rfl
  have e1 : publishMqttTimes cfg 1 st = publishMqtt cfg true (publishMqttTimes cfg 0 st) :=
    rfl
  rw [e1, e]
  have hs := parseMQTTStatusPayload_suppressed _ p1 hf.1
  have hb := parseMQTTBrightnessPayload_suppressed _ p1 hf.2.1
  have hr := parseMQTTRgbPayload_suppressed _ p1 hf.2.2
  refine ⟨⟨?_, ?_, ?_, hf.1, hf.2.1, hf.2.2⟩, ⟨hs, by rw [hs]⟩, ⟨hb, by rw [hb]⟩,
    ⟨hr, by rw [hr]⟩⟩
  · rw [hf.1, h1.1]
  · rw [hf.2.1, h1.2.1]
  · rw [hf.2.2, h1.2.2]

/-! ## Fragments without a buffer -/

/-- C17. Fragments without a buffer are dropped: a call of `onMqttMessage`
with `index` different from 0 while `payloadStr` is null returns with the
state exactly as it was (nothing is recorded in the trace, so no parser and
no hook ran; the buffer stays null; `bri`, `briLast`, `col` and the three
ignore flags are unchanged), whatever `topic`, `payload`, `len` and `total`
are. -/
theorem fragment_without_buffer_dropped (cfg : Config) (st : State) (c : Call)
    (hnull : st.payloadStr = none) (hidx : c.index ≠ 0) :
    onMqttMessage cfg st c = some st := by
  cases st with
  | mk bri briLast c0 c1 c2 c3 fS fB fR ps tr =>
    simp only at hnull
    subst hnull
    unfold onMqttMessage
    cases c.payload with
    | none => rfl
    | some chunk => simp [hidx]

/-- Witness of `fragment_without_buffer_dropped`: a fragment at offset 3 of a
message of 5 bytes on the topic `"wled/a/rgb"` while no buffer exists. -/
theorem fragment_without_buffer_dropped_witness :
    onMqttMessage cfg0 st0
        { topic := [119, 108, 101, 100, 47, 97, 47, 114, 103, 98],
          payload := some [44, 51], len := 2, index := 3, total := 5,
          fresh := some (fun _ => 0) }
      = some st0 :=
  fragment_without_buffer_dropped cfg0 st0 _ (by decide) (by decide)

/-! ## Brightness modulo 256 -/

/-- C20. Brightness is the parsed value reduced modulo 256: with
`ignoreBrightnessTopic` false, a payload that is the decimal string of a
natural number `n` within the range of `unsigned long` sets `bri` to
`n mod 256` and calls `stateUpdated(CALL_MODE_DIRECT_CHANGE)`; nothing else
changes. -/
theorem brightness_mod_256 (st : State) (payload : List Nat) (n : Nat)
    (h : st.ignoreBrightnessTopic = false) (hn : n ≤ ULONG_MAX)
    (hp : cstr payload = fmtU n) :
    parseMQTTBrightnessPayload st payload =
      { st with
        bri := n % 256
        trace := st.trace ++ [Event.stateUpdated CallMode.CALL_MODE_DIRECT_CHANGE] } := by
  rw [parseMQTTBrightnessPayload_value st payload h, hp]
  have := strtoul_fmtU n [] hn (by simp)
  simp only [List.append_nil] at this
  rw [this]

/-- Witness of `brightness_mod_256`: the payload `"1000"` sets `bri` to
`1000 mod 256 = 232`. -/
theorem brightness_mod_256_witness :
    parseMQTTBrightnessPayload st0 [49, 48, 48, 48, 0] =
      { st0 with
        bri := 1000 % 256
        trace := st0.trace ++ [Event.stateUpdated CallMode.CALL_MODE_DIRECT_CHANGE] } :=
  brightness_mod_256 st0 [49, 48, 48, 48, 0] 1000 (by decide) (by decide) (by decide)

/-! ## Publisher: the three calls -/

theorem decDigitsAux_head (fuel : Nat) :
    ∀ n : Nat, n < fuel → 0 < n → (decDigitsAux fuel n).head? ≠ some 48 := by
  induction fuel with
  | zero => intro n h; omega
  | succ k ih =>
    intro n h hn
    unfold decDigitsAux
    split
    · simp
      omega
    · have hk : n / 10 < k := by omega
      obtain ⟨j, rfl⟩ : ∃ j, k = j + 1 := ⟨k - 1, by omega⟩
      rw [List.head?_append_of_ne_nil _ (decDigitsAux_ne_nil j (n / 10))]
      exact ih (n / 10) hk (by omega)

/-- The output of `%u` has no leading zero, except for the number 0. -/
theorem fmtU_head (n : Nat) (hn : n ≠ 0) : (fmtU n).head? ≠ some 48 :=
  decDigitsAux_head (n + 1) n (by omega) (by omega)

theorem status_payload_eq (b : Nat) :
    snprintf 32 (fmtD (if b > 0 then 1 else 0)) = (if b > 0 then litOne else litZero) := by
  split_ifs <;> decide

theorem rgb_payload_eq (a b c d : Nat) (ha : a ≤ 255) (hb : b ≤ 255) (hc : c ≤ 255)
    (hd : d ≤ 255) :
    (if d > 0 then
        snprintf 32 (fmtD (a : Int) ++ [44] ++ fmtD (b : Int) ++ [44] ++ fmtD (c : Int)
          ++ [44] ++ fmtD (d : Int))
      else snprintf 32 (fmtD (a : Int) ++ [44] ++ fmtD (b : Int) ++ [44] ++ fmtD (c : Int)))
    = (if d > 0 then fmtU a ++ [44] ++ fmtU b ++ [44] ++ fmtU c ++ [44] ++ fmtU d
      else fmtU a ++ [44] ++ fmtU b ++ [44] ++ fmtU c) := by
  have la := fmtU_length_le a ha
  have lb := fmtU_length_le b hb
  have lc := fmtU_length_le c hc
  have ld := fmtU_length_le d hd
  simp only [fmtD_natCast]
  split_ifs
  · exact snprintf_short _ (by simp only [List.length_append, List.length_singleton]; omega)
  · exact snprintf_short _ (by simp only [List.length_append, List.length_singleton]; omega)

theorem publishMqttCalls_snd (cfg : Config) (st : State) :
    (publishMqttCalls cfg true st).map Prod.snd =
      [Event.publish (strlcpy cfg.mqttDeviceTopic (cfg.MQTT_MAX_TOPIC_LEN + 1) ++ litStatus)
          0 cfg.retainMqttMsg (snprintf 32 (fmtD (if st.bri > 0 then 1 else 0))),
        Event.publish (strlcpy cfg.mqttDeviceTopic (cfg.MQTT_MAX_TOPIC_LEN + 1) ++ litBrightness)
          0 cfg.retainMqttMsg (snprintf 32 (fmtU st.bri)),
        Event.publish (strlcpy cfg.mqttDeviceTopic (cfg.MQTT_MAX_TOPIC_LEN + 1) ++ litRgb)
          0 cfg.retainMqttMsg
          (if st.col3 > 0 then
            snprintf 32 (fmtD st.col0 ++ [44] ++ fmtD st.col1 ++ [44] ++ fmtD st.col2
              ++ [44] ++ fmtD st.col3)
          else
            snprintf 32 (fmtD st.col0 ++ [44] ++ fmtD st.col1 ++ [44] ++ fmtD st.col2))] := by
  simp [publishMqttCalls, strcat]

/-- C13. `publishMqtt()` when connected, for a device topic no longer than
`MQTT_MAX_TOPIC_LEN` and `bri`, `col[0..3]` within a byte: exactly three
`publish` calls are issued, in this order, each with qos 0 and the
configured retain flag: the device topic followed by `"/status"` with `"1"`
if `bri > 0` else `"0"`, followed by `"/brightness"` with the decimal string
of `bri` (no leading zero), followed by `"/rgb"` with `R,G,B,W` if
`col[3] > 0` else `R,G,B`. When each call is issued the ignore flag of its
suffix is already true (the flags of the later suffixes are still as
before); on return all three flags are true, the trace has grown by these
three calls, and `bri`, `briLast`, `col` are unchanged. -/
theorem publish_connected (cfg : Config) (st : State)
    (hD : cfg.mqttDeviceTopic.length ≤ cfg.MQTT_MAX_TOPIC_LEN)
    (hbri : st.bri ≤ 255) (h0 : st.col0 ≤ 255) (h1 : st.col1 ≤ 255) (h2 : st.col2 ≤ 255)
    (h3 : st.col3 ≤ 255) :
    (publishMqttCalls cfg true st).map Prod.snd =
      [Event.publish (cfg.mqttDeviceTopic ++ litStatus) 0 cfg.retainMqttMsg
          (if st.bri > 0 then litOne else litZero),
        Event.publish (cfg.mqttDeviceTopic ++ litBrightness) 0 cfg.retainMqttMsg
          (fmtU st.bri),
        Event.publish (cfg.mqttDeviceTopic ++ litRgb) 0 cfg.retainMqttMsg
          (if st.col3 > 0 then
            fmtU st.col0 ++ [44] ++ fmtU st.col1 ++ [44] ++ fmtU st.col2 ++ [44]
              ++ fmtU st.col3
          else fmtU st.col0 ++ [44] ++ fmtU st.col1 ++ [44] ++ fmtU st.col2)]
    ∧ (publishMqttCalls cfg true st).map
        (fun c => (c.1.ignoreStatusTopic, c.1.ignoreBrightnessTopic, c.1.ignoreRgbTopic))
      = [(true, st.ignoreBrightnessTopic, st.ignoreRgbTopic),
          (true, true, st.ignoreRgbTopic), (true, true, true)]
    ∧ (publishMqtt cfg true st).trace
      = st.trace ++ (publishMqttCalls cfg true st).map Prod.snd
    ∧ (publishMqtt cfg true st).ignoreStatusTopic = true
    ∧ (publishMqtt cfg true st).ignoreBrightnessTopic = true
    ∧ (publishMqtt cfg true st).ignoreRgbTopic = true
    ∧ (publishMqtt cfg true st).bri = st.bri
    ∧ (publishMqtt cfg true st).briLast = st.briLast
    ∧ (publishMqtt cfg true st).col0 = st.col0
    ∧ (publishMqtt cfg true st).col1 = st.col1
    ∧ (publishMqtt cfg true st).col2 = st.col2
    ∧ (publishMqtt cfg true st).col3 = st.col3
    ∧ digitsValue 0 (fmtU st.bri) = st.bri
    ∧ (st.bri ≠ 0 → (fmtU st.bri).head? ≠ some 48) := by
  refine ⟨?_, rfl, ?_, rfl, rfl, rfl, rfl, rfl, rfl, rfl, rfl, rfl, digitsValue_fmtU _,
    fmtU_head _⟩
  · rw [publishMqttCalls_snd, strlcpy_short _ _ hD, status_payload_eq,
      snprintf_short _ (by have := fmtU_length_le st.bri hbri; omega),
      rgb_payload_eq _ _ _ _ h0 h1 h2 h3]
  · rw [publishMqtt_trace, publishMqttCalls_snd]

/-- Witness of `publish_connected` at `bri = 100`, `col = (1, 2, 3, 4)` and
device topic `"wled/a"`: the payloads are `"1"`, `"100"` and `"1,2,3,4"`. -/
theorem publish_connected_witness :
    (publishMqttCalls cfg0 true st0).map Prod.snd =
      [Event.publish [119, 108, 101, 100, 47, 97, 47, 115, 116, 97, 116, 117, 115] 0 false
          [49],
        Event.publish
          [119, 108, 101, 100, 47, 97, 47, 98, 114, 105, 103, 104, 116, 110, 101, 115, 115]
          0 false [49, 48, 48],
        Event.publish [119, 108, 101, 100, 47, 97, 47, 114, 103, 98] 0 false
          [49, 44, 50, 44, 51, 44, 52]] := by
  rw [(publish_connected cfg0 st0 (by decide) (by decide) (by decide) (by decide)
    (by decide) (by decide)).1]
  decide

/-! ## State of the reassembly buffer -/

theorem memcpy_length (block src : List Nat) (off len : Nat) (block1 : List Nat)
    (h : memcpy block off src len = some block1) : block1.length = block.length := by
  unfold memcpy at h
  split_ifs at h with h0 h1
  · simp at h
    rw [← h]
  · simp at h
    rw [← h]
    simp
    omega

/-- The cases of `onMqttMessage` for a call with a payload: no block (the
buffer becomes or stays null), a stored incomplete fragment (the buffer is
the block written to), or a completed message (routed). -/
theorem onMqttMessage_cases (cfg : Config) (st : State) (c : Call) (chunk : List Nat)
    (st' : State) (hp : c.payload = some chunk) (hres : onMqttMessage cfg st c = some st') :
    ((if c.index = 0 then c.fresh.map (newBlock ((c.total + 1) % SIZE_MOD))
        else st.payloadStr) = none
      ∧ st' = { st with payloadStr := none })
    ∨ (∃ block block1,
        (if c.index = 0 then c.fresh.map (newBlock ((c.total + 1) % SIZE_MOD))
          else st.payloadStr) = some block
        ∧ memcpy block c.index chunk c.len = some block1
        ∧ ((c.index + c.len) % SIZE_MOD < c.total ∧ st' = { st with payloadStr := some block1 }
          ∨ ∃ block2, c.total ≤ (c.index + c.len) % SIZE_MOD
              ∧ storeByte block1 c.total 0 = some block2
              ∧ st' = onMqttMessageRoute cfg st c.topic block2)) := by
  unfold onMqttMessage at hres
  rw [hp] at hres
  simp only [] at hres
  cases hps : (if c.index = 0 then c.fresh.map (newBlock ((c.total + 1) % SIZE_MOD))
      else st.payloadStr) with
  | none =>
    rw [hps] at hres
    simp only [Option.some.injEq] at hres
    exact Or.inl ⟨rfl, hres.symm⟩
  | some block =>
    rw [hps] at hres
    simp only [] at hres
    cases hm : memcpy block c.index chunk c.len with
    | none =>
      rw [hm] at hres
      simp at hres
    | some block1 =>
      rw [hm] at hres
      simp only [] at hres
      refine Or.inr ⟨block, block1, rfl, hm, ?_⟩
      by_cases hc : (c.index + c.len) % SIZE_MOD ≥ c.total
      · rw [if_pos hc] at hres
        cases hs : storeByte block1 c.total 0 with
        | none =>
          rw [hs] at hres
          simp at hres
        | some block2 =>
          rw [hs] at hres
          simp only [Option.some.injEq] at hres
          exact Or.inr ⟨block2, hc, rfl, hres.symm⟩
      · rw [if_neg hc] at hres
        simp only [Option.some.injEq] at hres
        exact Or.inl ⟨by omega, hres.symm⟩

theorem block_isSome (st : State) (c : Call) :
    ((if c.index = 0 then c.fresh.map (newBlock ((c.total + 1) % SIZE_MOD))
        else st.payloadStr).isSome)
      = (if c.index = 0 then c.fresh.isSome else st.payloadStr.isSome) := by
  split_ifs <;> simp

/-- C18. Reassembly-state invariant: after a call of `onMqttMessage` with a
non-null payload (that stays within the block), `payloadStr` is non-null
exactly when the call had a block to store its fragment in (a successful
allocation for `index = 0`, the existing buffer otherwise) and the message is
still incomplete, `index + len < total` (the sum being computed in
`size_t`; it is the plain sum when it is representable). In particular the
routing of a completed payload always ends with `payloadStr` null, on each of
its paths (foreign topic, built-in suffix, unknown suffix, empty suffix). -/
theorem reassembly_state_invariant (cfg : Config) (st : State) (c : Call)
    (chunk : List Nat) (st' : State) (hp : c.payload = some chunk)
    (hres : onMqttMessage cfg st c = some st') :
    (st'.payloadStr ≠ none ↔
      ((if c.index = 0 then c.fresh.isSome else st.payloadStr.isSome) = true
        ∧ (c.index + c.len) % SIZE_MOD < c.total))
    ∧ (c.index + c.len < SIZE_MOD →
      (st'.payloadStr ≠ none ↔
        ((if c.index = 0 then c.fresh.isSome else st.payloadStr.isSome) = true
          ∧ c.index + c.len < c.total)))
    ∧ (∀ t buf, (onMqttMessageRoute cfg st t buf).payloadStr = none) := by
  have main : st'.payloadStr ≠ none ↔
      ((if c.index = 0 then c.fresh.isSome else st.payloadStr.isSome) = true
        ∧ (c.index + c.len) % SIZE_MOD < c.total) := by
    rw [← block_isSome st c]
    rcases onMqttMessage_cases cfg st c chunk st' hp hres with
      ⟨hn, rfl⟩ | ⟨block, block1, hb, _, ⟨hlt, rfl⟩ | ⟨block2, hge, _, rfl⟩⟩
    · rw [hn]
      simp
    · rw [hb]
      simp [hlt]
    · rw [hb, onMqttMessageRoute_null]
      simp
      omega
  refine ⟨main, ?_, onMqttMessageRoute_null cfg st⟩
  intro hsum
  rw [main, Nat.mod_eq_of_lt hsum]

/-- Witness of `reassembly_state_invariant`: the first two of five bytes are
stored and the buffer is non-null afterwards. -/
theorem reassembly_state_invariant_witness :
    ({ st0 with payloadStr := some [49, 44, 0, 0, 0, 0] } : State).payloadStr ≠ none ↔
      ((if (0 : Nat) = 0 then (some (fun _ : Nat => (0 : Nat))).isSome
          else st0.payloadStr.isSome) = true
        ∧ (0 + 2) % SIZE_MOD < 5) :=
  (reassembly_state_invariant cfg0 st0
    { topic := [120], payload := some [49, 44], len := 2, index := 0, total := 5,
      fresh := some (fun _ => 0) }
    [49, 44] { st0 with payloadStr := some [49, 44, 0, 0, 0, 0] } rfl (by decide)).1

/-! ## Writes stay in bounds -/

/-- One well-formed fragment of a message of `T` bytes, arriving while the
buffer is null or a block of `T + 1` bytes (or starting a message itself),
is handled without a write outside the block, and leaves the buffer null or
a block of `T + 1` bytes. -/
theorem onMqttMessage_in_bounds (cfg : Config) (st : State) (T : Nat) (c : Call)
    (hT : T + 1 < SIZE_MOD)
    (hinv : (∀ b, st.payloadStr = some b → b.length = T + 1)
      ∨ (c.index = 0 ∧ c.payload ≠ none))
    (htot : c.total = T) (hsum : c.index + c.len ≤ T)
    (hread : ∀ ch, c.payload = some ch → c.len ≤ ch.length) :
    ∃ st', onMqttMessage cfg st c = some st'
      ∧ (∀ b, st'.payloadStr = some b → b.length = T + 1) := by
  cases hp : c.payload with
  | none =>
    refine ⟨st, by unfold onMqttMessage; rw [hp], ?_⟩
    rcases hinv with h | ⟨_, h⟩
    · exact h
    · exact absurd hp h
  | some chunk =>
    have hps : ∀ block, (if c.index = 0 then c.fresh.map (newBlock ((c.total + 1) % SIZE_MOD))
        else st.payloadStr) = some block → block.length = T + 1 := by
      intro block hb
      by_cases h0 : c.index = 0
      · rw [if_pos h0, htot, Nat.mod_eq_of_lt hT] at hb
        cases hf : c.fresh with
        | none => rw [hf] at hb; simp at hb
        | some f =>
          rw [hf] at hb
          simp at hb
          rw [← hb, newBlock_length]
      · rw [if_neg h0] at hb
        rcases hinv with h | ⟨h, _⟩
        · exact h block hb
        · exact absurd h h0
    unfold onMqttMessage
    rw [hp]
    simp only []
    cases hb : (if c.index = 0 then c.fresh.map (newBlock ((c.total + 1) % SIZE_MOD))
        else st.payloadStr) with
    | none => exact ⟨_, rfl, by simp⟩
    | some block =>
      have hlen := hps block hb
      simp only []
      have hm : ∃ block1, memcpy block c.index chunk c.len = some block1 := by
        unfold memcpy
        by_cases hl : c.len = 0
        · exact ⟨block, by rw [if_pos hl]⟩
        · have := hread chunk hp
          rw [if_neg hl, if_pos ⟨by omega, this⟩]
          exact ⟨_, rfl⟩
      obtain ⟨block1, hm⟩ := hm
      have hlen1 := memcpy_length _ _ _ _ _ hm
      rw [hm]
      simp only []
      by_cases hc : (c.index + c.len) % SIZE_MOD ≥ c.total
      · rw [if_pos hc]
        have hs : storeByte block1 c.total 0 = some (block1.set c.total 0) := by
          unfold storeByte
          rw [if_pos (by omega)]
        rw [hs]
        refine ⟨_, rfl, ?_⟩
        intro b hb'
        rw [onMqttMessageRoute_null] at hb'
        simp at hb'
      · rw [if_neg hc]
        refine ⟨_, rfl, ?_⟩
        intro b hb'
        simp at hb'
        rw [← hb']
        omega

theorem feed_in_bounds (cfg : Config) (T : Nat) (hT : T + 1 < SIZE_MOD) :
    ∀ (calls : List Call) (st : State),
      (∀ b, st.payloadStr = some b → b.length = T + 1) →
      (∀ c ∈ calls, c.total = T ∧ c.index + c.len ≤ T
        ∧ ∀ ch, c.payload = some ch → c.len ≤ ch.length) →
      ∃ st', feed cfg st calls = some st'
        ∧ (∀ b, st'.payloadStr = some b → b.length = T + 1) := by
  intro calls
  induction calls with
  | nil => intro st hst _; exact ⟨st, rfl, hst⟩
  | cons c cs ih =>
    intro st hst hwf
    have hc := hwf c (by simp)
    obtain ⟨st1, h1, hinv1⟩ :=
      onMqttMessage_in_bounds cfg st T c hT (Or.inl hst) hc.1 hc.2.1 hc.2.2
    obtain ⟨st2, h2, hinv2⟩ := ih st1 hinv1 (fun d hd => hwf d (by simp [hd]))
    exact ⟨st2, by simp only [feed, h1]; exact h2, hinv2⟩

/-- C19. Writes stay in bounds for well-formed fragment sequences: let the
buffer be a block of `T + 1` bytes, as allocated by a fragment with offset 0
and total `T` (or let the sequence start with that fragment, or the buffer
be null), with `T + 1` representable in `size_t`. If every fragment carries
the total `T`, satisfies `index + len <= T` and points to at least `len`
readable bytes, then no call writes outside the block: `feed` never takes
the out-of-bounds branch (its result is not `none`), and afterwards the
buffer is again null or a block of `T + 1` bytes. -/
theorem writes_in_bounds (cfg : Config) (st : State) (T : Nat) (calls : List Call)
    (hT : T + 1 < SIZE_MOD)
    (hstart : (∀ b, st.payloadStr = some b → b.length = T + 1)
      ∨ (∃ c rest, calls = c :: rest ∧ c.index = 0 ∧ c.payload ≠ none))
    (hwf : ∀ c ∈ calls, c.total = T ∧ c.index + c.len ≤ T
      ∧ ∀ ch, c.payload = some ch → c.len ≤ ch.length) :
    ∃ st', feed cfg st calls = some st'
      ∧ (∀ b, st'.payloadStr = some b → b.length = T + 1) := by
  rcases hstart with hst | ⟨c, rest, rfl, h0, hp⟩
  · exact feed_in_bounds cfg T hT calls st hst hwf
  · have hc := hwf c (by simp)
    obtain ⟨st1, h1, hinv1⟩ :=
      onMqttMessage_in_bounds cfg st T c hT (Or.inr ⟨h0, hp⟩) hc.1 hc.2.1 hc.2.2
    obtain ⟨st2, h2, hinv2⟩ :=
      feed_in_bounds cfg T hT rest st1 hinv1 (fun d hd => hwf d (by simp [hd]))
    exact ⟨st2, by simp only [feed, h1]; exact h2, hinv2⟩

/-- Witness of `writes_in_bounds`: the message `"1,2,3"` in the fragments
`"1,"` (offset 0) and `"2,3"` (offset 2), starting from a state that still
holds a block of another size. -/
theorem writes_in_bounds_witness :
    ∃ st', feed cfg0 { st0 with payloadStr := some [7] }
        (fragmentCalls [120] 5 (fun _ => some (fun _ => 7)) 0 0 [[49, 44], [50, 44, 51]])
        = some st'
      ∧ (∀ b, st'.payloadStr = some b → b.length = 5 + 1) :=
  writes_in_bounds cfg0 { st0 with payloadStr := some [7] } 5
    (fragmentCalls [120] 5 (fun _ => some (fun _ => 7)) 0 0 [[49, 44], [50, 44, 51]])
    (by simp [SIZE_MOD]) (Or.inr ⟨_, _, rfl, rfl, by simp⟩)
    (by
      intro c hc
      simp only [fragmentCalls, List.mem_cons, List.mem_singleton, List.not_mem_nil,
        or_false] at hc
      rcases hc with rfl | rfl <;> simp)

/-! ## A new message discards an unfinished one -/

end Mqtt
